import Mathlib

/-!
Verification development for the value-betting analysis core
(`analysis/value_analyzer.py`, `matching/event_matcher.py`,
`matching/team_normalizer.py`, `utils/datetime_utils.py`, `config/settings.py`).

Python `dict`s of odds are modeled as association lists `List (String × _)`
(dict keys are unique and iteration follows insertion order, which the
association list preserves).  Python floats are modeled as real numbers
(exact arithmetic).  A Python value that may be `None` is modeled as an
`Option`.  A function that may let an exception escape to its caller is
modeled in `Except Unit`, where `Except.error ()` is an uncaught exception;
exceptions that the source catches locally are folded into its normal
return value.
-/

open Real

namespace VB

/-! ## config/settings.py -/

def MATCH_TIME_TOLERANCE_MINUTES : ℤ := 12

noncomputable def TEAM_SIMILARITY_THRESHOLD : ℝ := 0.85

noncomputable def MINIMUM_EDGE_THRESHOLD : ℝ := 0.025

noncomputable def KELLY_FRACTION : ℝ := 0.25

noncomputable def MAX_STAKE_PERCENTAGE : ℝ := 0.05

/-! ## analysis/value_analyzer.py -/

namespace ValueAnalyzer

/-- The key-stripping prelude of `remove_vig_multiplicative`:
`keys = list(odds.keys()); keys.remove("margin"); keys.remove("line")`.
Since dict keys are unique, removing the (at most one) occurrence of each
auxiliary key is filtering the association list. -/
def stripAux {α : Type} (odds : List (String × α)) : List (String × α) :=
  ((odds.filter (fun kv => kv.1 ≠ "margin")).filter (fun kv => kv.1 ≠ "line"))

/-- The first exception raised while evaluating the comprehension
`implied_probs = {k: 1.0/odds[k] for k in keys}`:
`some true` is `TypeError` (`1.0/None`, NOT caught by the
`except (KeyError, ZeroDivisionError, ValueError)` clause),
`some false` is `ZeroDivisionError` (`1.0/0.0`, caught), and
`none` means no exception. -/
noncomputable def firstBadVal : List (String × Option ℝ) → Option Bool
  | [] => none
  | (_, none) :: _ => some true
  | (_, some v) :: rest => if v = 0 then some false else firstBadVal rest

/-- Model of `ValueAnalyzer.remove_vig_multiplicative`.  `Except.error ()` is an
uncaught `TypeError` escaping to the caller; `.ok none` is the `None`
returned on a caught exception or on an empty outcome set. -/
noncomputable def remove_vig_multiplicative (odds : List (String × Option ℝ)) :
    Except Unit (Option (List (String × ℝ))) :=
  let kvs := stripAux odds
  match firstBadVal kvs with
  | some true => .error ()
  | some false => .ok none
  | none =>
    match kvs with
    | [] => .ok none
    | [kv] => .ok (some [(kv.1, 1)])
    | _ :: _ :: _ =>
      let implied : List (String × ℝ) := kvs.map (fun kv => (kv.1, 1 / kv.2.getD 0))
      let total : ℝ := (implied.map Prod.snd).sum
      let n : ℕ := kvs.length
      let exponent : ℝ := ((n : ℝ) - 1) / (n : ℝ)
      if total = 0 then .ok none
      else
        let adjusted : List (String × ℝ) :=
          implied.map (fun kv => (kv.1, kv.2 ^ (1 / exponent) / total ^ (1 / exponent)))
        let adj_total : ℝ := (adjusted.map Prod.snd).sum
        if adj_total = 0 then .ok none
        else .ok (some (adjusted.map (fun kv => (kv.1, kv.2 / adj_total))))

/-- Application of `remove_vig_multiplicative` to an all-float odds dict
(every call site except the swapped-odds dict passes such a dict). -/
noncomputable def devigF (odds : List (String × ℝ)) :
    Except Unit (Option (List (String × ℝ))) :=
  remove_vig_multiplicative (odds.map (fun kv => (kv.1, some kv.2)))

/-- Model of `ValueAnalyzer.calculate_edge`. -/
noncomputable def calculate_edge (true_prob offered_odds : ℝ) : ℝ :=
  (true_prob * offered_odds) - 1

/-- Model of `ValueAnalyzer.kelly_stake` (the `kelly_fraction` default argument
`KELLY_FRACTION` is passed explicitly at call sites). -/
noncomputable def kelly_stake (edge odds bankroll kelly_fraction : ℝ) : ℝ :=
  if edge ≤ 0 ∨ odds ≤ 1 then 0
  else
    let p := (1 + edge) / odds
    let q := 1 - p
    let b := odds - 1
    let kelly := (b * p - q) / b
    let fractional_kelly := max 0 (kelly * kelly_fraction)
    min (fractional_kelly * bankroll) (bankroll * MAX_STAKE_PERCENTAGE)

/-- Closed form of the main branch of `remove_vig_multiplicative` on an
all-positive stripped odds list `s` with at least two outcomes: the
`total ^ (1/exponent)` factor cancels between the adjusted value and the
final renormalization, leaving `p_k ^ r / Σ_j p_j ^ r` with `r = n/(n-1)`. -/
noncomputable def devigPos (s : List (String × ℝ)) : List (String × ℝ) :=
  s.map (fun kv => (kv.1, (1 / kv.2) ^ ((s.length : ℝ) / ((s.length : ℝ) - 1)) /
    (s.map (fun kv2 => (1 / kv2.2) ^ ((s.length : ℝ) / ((s.length : ℝ) - 1)))).sum))

/-- Body of `kelly_stake` with the backed-out probability `p = (1+edge)/odds`
replaced by the true probability that produced the edge; used to state the
round-trip property of `calculate_edge` followed by `kelly_stake`. -/
noncomputable def kelly_stake_from_true_prob (p odds bankroll kelly_fraction : ℝ) : ℝ :=
  if p * odds - 1 ≤ 0 ∨ odds ≤ 1 then 0
  else
    let q := 1 - p
    let b := odds - 1
    let kelly := (b * p - q) / b
    let fractional_kelly := max 0 (kelly * kelly_fraction)
    min (fractional_kelly * bankroll) (bankroll * MAX_STAKE_PERCENTAGE)

end ValueAnalyzer

/-! ## matching/team_normalizer.py -/

/-- Whitespace class of Python's regex `\s` and `str.strip()`, on the ASCII
range. -/
def pySpaceChars : List Char := [' ', '\t', '\n', '\r', '\u000b', '\u000c']

def isPySpace (c : Char) : Bool := pySpaceChars.contains c

/-- ASCII range marker: the fragment of inputs on which this model of the
normalizer is faithful (NFD normalization is the identity there, no character
has category Mn, and `str.lower()` agrees with `Char.toLower`). -/
def isASCIIChar (c : Char) : Bool := decide (c.toNat ≤ 127)

/-- Model of `str.strip()`: remove leading and trailing whitespace. -/
def pyStrip (s : List Char) : List Char :=
  ((s.dropWhile isPySpace).reverse.dropWhile isPySpace).reverse

/-- Model of `str.lower()` on the ASCII range. -/
def pyLower (s : List Char) : List Char := s.map Char.toLower

/-- Model of `strip_accents` (NFD-normalize, drop category-Mn characters).
On the ASCII fragment — the scope of every theorem about the normalizer
below — NFD is the identity and no character is a combining mark, so the
function is the identity. -/
def strip_accents (s : List Char) : List Char := s

/-- Character class of the regex `[.\-–—/']` in `normalize_team_name`. -/
def punctChars : List Char := ['.', '-', '–', '—', '/', '\'']

/-- Model of `re.sub(r"[.\-–—/']", " ", s)`: each punctuation-class character
becomes one space. -/
def punctToSpace (s : List Char) : List Char :=
  s.map (fun c => if punctChars.contains c then ' ' else c)

/-- Helper of `collapseSpaces`: the flag records whether the previous
character belonged to a whitespace run already replaced by one space. -/
def collapseGo : Bool → List Char → List Char
  | _, [] => []
  | prevSpace, c :: cs =>
    if isPySpace c then
      if prevSpace then collapseGo true cs
      else ' ' :: collapseGo true cs
    else c :: collapseGo false cs

/-- Model of `re.sub(r"\s+", " ", s)`: collapse every whitespace run into a
single space. -/
def collapseSpaces (s : List Char) : List Char := collapseGo false s

/-- The `TEAM_ALIASES` dict (its keys are pairwise distinct, so `List.lookup`
agrees with the dict lookup). -/
def TEAM_ALIASES : List (String × String) := [
  ("ajax", "ajax"),
  ("afc ajax", "ajax"),
  ("ajax amsterdam", "ajax"),
  ("psv", "psv"),
  ("psv eindhoven", "psv"),
  ("feyenoord", "feyenoord"),
  ("feyenoord rotterdam", "feyenoord"),
  ("az", "az"),
  ("az alkmaar", "az"),
  ("fc twente", "fc twente"),
  ("twente", "fc twente"),
  ("twente enschede", "fc twente"),
  ("fc utrecht", "fc utrecht"),
  ("utrecht", "fc utrecht"),
  ("sc heerenveen", "sc heerenveen"),
  ("heerenveen", "sc heerenveen"),
  ("nac breda", "nac breda"),
  ("nac", "nac breda"),
  ("rkc waalwijk", "rkc waalwijk"),
  ("rkc", "rkc waalwijk"),
  ("pec zwolle", "pec zwolle"),
  ("zwolle", "pec zwolle"),
  ("go ahead eagles", "go ahead eagles"),
  ("ga eagles", "go ahead eagles"),
  ("fortuna sittard", "fortuna sittard"),
  ("fortuna", "fortuna sittard"),
  ("sparta rotterdam", "sparta rotterdam"),
  ("sparta", "sparta rotterdam"),
  ("heracles almelo", "heracles almelo"),
  ("heracles", "heracles almelo"),
  ("willem ii", "willem ii"),
  ("willem ii tilburg", "willem ii"),
  ("nec nijmegen", "nec nijmegen"),
  ("nec", "nec nijmegen"),
  ("n e c nijmegen", "nec nijmegen"),
  ("fc groningen", "fc groningen"),
  ("groningen", "fc groningen"),
  ("almere city", "almere city"),
  ("almere city fc", "almere city"),
  ("excelsior", "excelsior"),
  ("excelsior rotterdam", "excelsior"),
  ("sbv excelsior", "excelsior"),
  ("fc eindhoven", "fc eindhoven"),
  ("eindhoven", "fc eindhoven"),
  ("fc den bosch", "fc den bosch"),
  ("den bosch", "fc den bosch"),
  ("fc dordrecht", "fc dordrecht"),
  ("dordrecht", "fc dordrecht"),
  ("fc emmen", "fc emmen"),
  ("emmen", "fc emmen"),
  ("fc volendam", "fc volendam"),
  ("volendam", "fc volendam"),
  ("de graafschap", "de graafschap"),
  ("graafschap", "de graafschap"),
  ("sc cambuur", "sc cambuur"),
  ("cambuur", "sc cambuur"),
  ("cambuur leeuwarden", "sc cambuur"),
  ("mvv maastricht", "mvv maastricht"),
  ("mvv", "mvv maastricht"),
  ("ado den haag", "ado den haag"),
  ("ado", "ado den haag"),
  ("helmond sport", "helmond sport"),
  ("helmond", "helmond sport"),
  ("telstar", "telstar"),
  ("sc telstar", "telstar"),
  ("top oss", "top oss"),
  ("oss", "top oss"),
  ("vvv venlo", "vvv venlo"),
  ("vvv-venlo", "vvv venlo"),
  ("venlo", "vvv venlo"),
  ("roda jc", "roda jc"),
  ("roda jc kerkrade", "roda jc"),
  ("roda", "roda jc"),
  ("jong ajax", "jong ajax"),
  ("ajax ii", "jong ajax"),
  ("jong psv", "jong psv"),
  ("psv ii", "jong psv"),
  ("jong az", "jong az"),
  ("az ii", "jong az"),
  ("jong fc utrecht", "jong fc utrecht"),
  ("fc utrecht ii", "jong fc utrecht"),
  ("manchester united", "manchester united"),
  ("man united", "manchester united"),
  ("man utd", "manchester united"),
  ("manchester city", "manchester city"),
  ("man city", "manchester city"),
  ("liverpool", "liverpool"),
  ("liverpool fc", "liverpool"),
  ("chelsea", "chelsea"),
  ("chelsea fc", "chelsea"),
  ("arsenal", "arsenal"),
  ("arsenal fc", "arsenal"),
  ("tottenham", "tottenham"),
  ("tottenham hotspur", "tottenham"),
  ("spurs", "tottenham"),
  ("newcastle", "newcastle"),
  ("newcastle united", "newcastle"),
  ("aston villa", "aston villa"),
  ("villa", "aston villa"),
  ("brighton", "brighton"),
  ("brighton & hove albion", "brighton"),
  ("brighton and hove albion", "brighton"),
  ("west ham", "west ham"),
  ("west ham united", "west ham"),
  ("everton", "everton"),
  ("everton fc", "everton"),
  ("crystal palace", "crystal palace"),
  ("palace", "crystal palace"),
  ("fulham", "fulham"),
  ("fulham fc", "fulham"),
  ("brentford", "brentford"),
  ("brentford fc", "brentford"),
  ("nottingham forest", "nottingham forest"),
  ("notts forest", "nottingham forest"),
  ("forest", "nottingham forest"),
  ("wolverhampton", "wolverhampton"),
  ("wolves", "wolverhampton"),
  ("wolverhampton wanderers", "wolverhampton"),
  ("bournemouth", "bournemouth"),
  ("afc bournemouth", "bournemouth"),
  ("leicester", "leicester"),
  ("leicester city", "leicester"),
  ("southampton", "southampton"),
  ("southampton fc", "southampton"),
  ("leeds", "leeds"),
  ("leeds united", "leeds"),
  ("ipswich", "ipswich"),
  ("ipswich town", "ipswich"),
  ("bayern munich", "bayern munich"),
  ("bayern", "bayern munich"),
  ("fc bayern munchen", "bayern munich"),
  ("borussia dortmund", "borussia dortmund"),
  ("dortmund", "borussia dortmund"),
  ("bvb", "borussia dortmund"),
  ("rb leipzig", "rb leipzig"),
  ("leipzig", "rb leipzig"),
  ("bayer leverkusen", "bayer leverkusen"),
  ("leverkusen", "bayer leverkusen"),
  ("union berlin", "union berlin"),
  ("fc union berlin", "union berlin"),
  ("freiburg", "freiburg"),
  ("sc freiburg", "freiburg"),
  ("eintracht frankfurt", "eintracht frankfurt"),
  ("frankfurt", "eintracht frankfurt"),
  ("vfl wolfsburg", "vfl wolfsburg"),
  ("wolfsburg", "vfl wolfsburg"),
  ("borussia monchengladbach", "borussia monchengladbach"),
  ("monchengladbach", "borussia monchengladbach"),
  ("gladbach", "borussia monchengladbach"),
  ("vfb stuttgart", "vfb stuttgart"),
  ("stuttgart", "vfb stuttgart"),
  ("werder bremen", "werder bremen"),
  ("bremen", "werder bremen"),
  ("hoffenheim", "hoffenheim"),
  ("tsg hoffenheim", "hoffenheim"),
  ("fc augsburg", "fc augsburg"),
  ("augsburg", "fc augsburg"),
  ("mainz", "mainz"),
  ("fsv mainz 05", "mainz"),
  ("mainz 05", "mainz"),
  ("fc koln", "fc koln"),
  ("koln", "fc koln"),
  ("cologne", "fc koln"),
  ("hertha berlin", "hertha berlin"),
  ("hertha bsc", "hertha berlin"),
  ("real madrid", "real madrid"),
  ("madrid", "real madrid"),
  ("barcelona", "barcelona"),
  ("fc barcelona", "barcelona"),
  ("barca", "barcelona"),
  ("atletico madrid", "atletico madrid"),
  ("atletico", "atletico madrid"),
  ("sevilla", "sevilla"),
  ("sevilla fc", "sevilla"),
  ("real sociedad", "real sociedad"),
  ("sociedad", "real sociedad"),
  ("real betis", "real betis"),
  ("betis", "real betis"),
  ("villarreal", "villarreal"),
  ("villarreal cf", "villarreal"),
  ("athletic bilbao", "athletic bilbao"),
  ("athletic", "athletic bilbao"),
  ("athletic club", "athletic bilbao"),
  ("valencia", "valencia"),
  ("valencia cf", "valencia"),
  ("getafe", "getafe"),
  ("getafe cf", "getafe"),
  ("osasuna", "osasuna"),
  ("ca osasuna", "osasuna"),
  ("rayo vallecano", "rayo vallecano"),
  ("rayo", "rayo vallecano"),
  ("celta vigo", "celta vigo"),
  ("celta", "celta vigo"),
  ("mallorca", "mallorca"),
  ("rcd mallorca", "mallorca"),
  ("girona", "girona"),
  ("girona fc", "girona"),
  ("las palmas", "las palmas"),
  ("ud las palmas", "las palmas"),
  ("alaves", "alaves"),
  ("deportivo alaves", "alaves"),
  ("juventus", "juventus"),
  ("juve", "juventus"),
  ("inter", "inter"),
  ("inter milan", "inter"),
  ("internazionale", "inter"),
  ("ac milan", "ac milan"),
  ("milan", "ac milan"),
  ("napoli", "napoli"),
  ("ssc napoli", "napoli"),
  ("roma", "roma"),
  ("as roma", "roma"),
  ("lazio", "lazio"),
  ("ss lazio", "lazio"),
  ("atalanta", "atalanta"),
  ("atalanta bc", "atalanta"),
  ("fiorentina", "fiorentina"),
  ("acf fiorentina", "fiorentina"),
  ("torino", "torino"),
  ("torino fc", "torino"),
  ("bologna", "bologna"),
  ("bologna fc", "bologna"),
  ("udinese", "udinese"),
  ("udinese calcio", "udinese"),
  ("sassuolo", "sassuolo"),
  ("us sassuolo", "sassuolo"),
  ("monza", "monza"),
  ("ac monza", "monza"),
  ("lecce", "lecce"),
  ("us lecce", "lecce"),
  ("cagliari", "cagliari"),
  ("cagliari calcio", "cagliari"),
  ("hellas verona", "hellas verona"),
  ("verona", "hellas verona"),
  ("salernitana", "salernitana"),
  ("us salernitana", "salernitana"),
  ("empoli", "empoli"),
  ("empoli fc", "empoli"),
  ("psg", "psg"),
  ("paris saint germain", "psg"),
  ("paris sg", "psg"),
  ("marseille", "marseille"),
  ("om", "marseille"),
  ("olympique marseille", "marseille"),
  ("lyon", "lyon"),
  ("olympique lyon", "lyon"),
  ("olympique lyonnais", "lyon"),
  ("monaco", "monaco"),
  ("as monaco", "monaco"),
  ("lille", "lille"),
  ("losc lille", "lille"),
  ("rennes", "rennes"),
  ("stade rennais", "rennes"),
  ("nice", "nice"),
  ("ogc nice", "nice"),
  ("lens", "lens"),
  ("rc lens", "lens"),
  ("strasbourg", "strasbourg"),
  ("rc strasbourg", "strasbourg"),
  ("montpellier", "montpellier"),
  ("montpellier hsc", "montpellier"),
  ("nantes", "nantes"),
  ("fc nantes", "nantes"),
  ("reims", "reims"),
  ("stade reims", "reims"),
  ("toulouse", "toulouse"),
  ("toulouse fc", "toulouse"),
  ("brest", "brest"),
  ("stade brestois", "brest"),
  ("le havre", "le havre"),
  ("le havre ac", "le havre"),
  ("lorient", "lorient"),
  ("fc lorient", "lorient"),
  ("clermont", "clermont"),
  ("clermont foot", "clermont"),
  ("metz", "metz"),
  ("fc metz", "metz")
]

/-- Alternatives of the regex `^(fc|sc|bv|sv|vv|afc|rk|pk|cf|us|ac|as|ssc|rc|og|ca|ud|rcd)\s+`. -/
def clubPrefixTokens : List String :=
  ["fc", "sc", "bv", "sv", "vv", "afc", "rk", "pk", "cf", "us", "ac", "as", "ssc",
   "rc", "og", "ca", "ud", "rcd"]

/-- Alternatives of the regex `\s+(fc|united|city|town|rovers|wanderers|athletic|hotspur|albion|calcio|amsterdam|rotterdam|nl)$`. -/
def clubSuffixTokens : List String :=
  ["fc", "united", "city", "town", "rovers", "wanderers", "athletic", "hotspur",
   "albion", "calcio", "amsterdam", "rotterdam", "nl"]

/-- Model of `re.sub(r'^(fc|sc|...)\s+', '', s)`: no alternative contains
whitespace and the match must be followed by `\s+`, so (with backtracking
across the alternation) the regex matches exactly when the first
whitespace-delimited token of `s` is one of the alternatives and at least one
whitespace character follows it; the token and the whole whitespace run after
it are removed. -/
def dropLeadingToken (alts : List String) (s : List Char) : List Char :=
  let tok := s.takeWhile (fun c => !(isPySpace c))
  let rest := s.dropWhile (fun c => !(isPySpace c))
  if alts.contains (String.mk tok) && !(rest.isEmpty) then rest.dropWhile isPySpace
  else s

/-- Model of `re.sub(r'\s+(fc|united|...)$', '', s)`: the regex matches exactly
when the last whitespace-delimited token of `s` is one of the alternatives and
at least one whitespace character precedes it; the greedy `\s+` removes the
whole whitespace run together with the token. -/
def dropTrailingToken (alts : List String) (s : List Char) : List Char :=
  let r := s.reverse
  let tok := (r.takeWhile (fun c => !(isPySpace c))).reverse
  let rest := r.dropWhile (fun c => !(isPySpace c))
  if alts.contains (String.mk tok) && !(rest.isEmpty) then (rest.dropWhile isPySpace).reverse
  else s

/-- The pure-textual normalization pipeline of `normalize_team_name`
(lowercase, strip, accent removal, punctuation to spaces, whitespace
collapsing, final strip) before any alias lookup. -/
def basicNormalize (name : String) : String :=
  String.mk (pyStrip (collapseSpaces (punctToSpace (strip_accents (pyStrip (pyLower name.data))))))

/-- Model of `normalize_team_name`. -/
def normalize_team_name (name : String) : String :=
  if name = "" then ""
  else
    let normalized := basicNormalize name
    match List.lookup normalized TEAM_ALIASES with
    | some v => v
    | none =>
      match List.lookup (String.mk (dropLeadingToken clubPrefixTokens normalized.data)) TEAM_ALIASES with
      | some v => v
      | none =>
        match List.lookup (String.mk (dropTrailingToken clubSuffixTokens normalized.data)) TEAM_ALIASES with
        | some v => v
        | none => normalized

/-! ## utils/datetime_utils.py -/

/-- Kickoff timestamps are modeled as integer seconds since the epoch; on this
representation `parse_datetime` (ISO-8601 string to aware datetime) is the
identity. -/
def parse_datetime (dt : ℤ) : ℤ := dt

/-- Model of `within_time_window(dt1, dt2, minutes)`. -/
def within_time_window (dt1 dt2 : ℤ) (minutes : ℤ) : Bool :=
  decide (|dt1 - dt2| ≤ minutes * 60)

/-! ## core/models.py -/

/-- Model of `UnifiedEvent`; market dicts are association lists of decimal
odds. -/
structure UnifiedEvent where
  provider : String
  provider_event_id : String
  league : String
  country : String
  kickoff_utc : ℤ
  home : String
  away : String
  markets : List (String × List (String × ℝ))
  scraped_at : String
  is_live : Bool

/-- Model of `ValueBet`. -/
structure ValueBet where
  league : String
  kickoff : ℤ
  home : String
  away : String
  bookmaker : String
  market : String
  outcome : String
  soft_odds : ℝ
  anchor_odds : ℝ
  soft_prob : ℝ
  anchor_prob : ℝ
  edge_percentage : ℝ
  recommended_stake : ℝ
  expected_value : ℝ

/-! ## matching/event_matcher.py

`team_similarity` wraps `difflib.SequenceMatcher(None, a, b).ratio()`, a
library algorithm the spec does not specify; the matcher is therefore
parameterized over an arbitrary similarity function `sim`, and every theorem
below quantifies over `sim`. -/

namespace EventMatcher

/-- One entry of the `candidates` list built inside `match_events`: the tuple
`(idx, right_event, score, exact_match, avg_similarity)`. -/
structure Candidate where
  idx : ℕ
  ev : UnifiedEvent
  score : ℤ
  isExact : Bool
  avg : ℝ

/-- The candidate-collection loop `for idx, right_event in enumerate(right)`
of `match_events`, for one left event (whose league, parsed kickoff and
normalized team names are passed in). -/
noncomputable def candidatesGo (sim : String → String → ℝ) (tol : ℤ) (minSim : ℝ)
    (used : Finset ℕ) (leagueL : String) (kickL : ℤ) (lh la : String) :
    ℕ → List UnifiedEvent → List Candidate
  | _, [] => []
  | idx, re :: rest =>
    let tail := candidatesGo sim tol minSim used leagueL kickL lh la (idx + 1) rest
    if idx ∈ used ∨ re.league ≠ leagueL then tail
    else
      let rh := normalize_team_name re.home
      let ra := normalize_team_name re.away
      let ex : Bool := decide (lh = rh ∧ la = ra)
      let avg := (sim lh rh + sim la ra) / 2
      if ex = true ∨ minSim ≤ avg then
        if within_time_window kickL (parse_datetime re.kickoff_utc) tol then
          let d := |parse_datetime re.kickoff_utc - kickL|
          ⟨idx, re, (if ex then d else d + 1000), ex, avg⟩ :: tail
        else tail
      else tail

/-- The `candidates` list collected for one left event. -/
noncomputable def candidatesFor (sim : String → String → ℝ) (tol : ℤ) (minSim : ℝ)
    (used : Finset ℕ) (lev : UnifiedEvent) (right : List UnifiedEvent) : List Candidate :=
  candidatesGo sim tol minSim used lev.league (parse_datetime lev.kickoff_utc)
    (normalize_team_name lev.home) (normalize_team_name lev.away) 0 right

/-- Model of `min(candidates, key=lambda x: x[2])`: the first candidate with
minimal score. -/
noncomputable def bestCandidate (c : Candidate) (cs : List Candidate) : Candidate :=
  cs.foldl (fun best x => if x.score < best.score then x else best) c

/-- The outer loop of `match_events` over left events, threading the
`used_indices` set; each emitted triple additionally records `best_idx`. -/
noncomputable def matchGo (sim : String → String → ℝ) (right : List UnifiedEvent)
    (tol : ℤ) (minSim : ℝ) :
    List UnifiedEvent → Finset ℕ → List (UnifiedEvent × ℕ × UnifiedEvent)
  | [], _ => []
  | lev :: ls, used =>
    match candidatesFor sim tol minSim used lev right with
    | [] => matchGo sim right tol minSim ls used
    | c :: cs =>
      let b := bestCandidate c cs
      (lev, b.idx, b.ev) :: matchGo sim right tol minSim ls (insert b.idx used)

/-- Model of `EventMatcher.match_events`, emitting the same pairs as the
source (`matchGo` additionally carries `best_idx`, which the source has in
hand when it emits a pair). -/
noncomputable def match_events (sim : String → String → ℝ)
    (left right : List UnifiedEvent) (tol : ℤ) (minSim : ℝ) :
    List (UnifiedEvent × UnifiedEvent) :=
  (matchGo sim right tol minSim left ∅).map (fun t => (t.1, t.2.2))

end EventMatcher

/-! ## analysis/value_analyzer.py, continued -/

namespace ValueAnalyzer

/-- The divergence sum
`sum(abs(probs.get(k, 0) - anchor_probs.get(k, 0)) for k in anchor_probs.keys())`
used twice inside `check_home_away_swap`. -/
noncomputable def divergence (probs anchor_probs : List (String × ℝ)) : ℝ :=
  (anchor_probs.map (fun kv =>
    |((List.lookup kv.1 probs).getD 0) - ((List.lookup kv.1 anchor_probs).getD 0)|)).sum

/-- The `swapped_odds` dict built inside `check_home_away_swap`: `dict.get`
yields `None` for a missing key, so the values are `Option`s. -/
def swappedOdds (soft_odds : List (String × ℝ)) : List (String × Option ℝ) :=
  [("home", List.lookup "away" soft_odds),
   ("draw", List.lookup "draw" soft_odds),
   ("away", List.lookup "home" soft_odds)]

/-- Model of `ValueAnalyzer.check_home_away_swap`.  A `None` or empty dict is
falsy in Python, hence the nested matches on `some (_ :: _)`. -/
noncomputable def check_home_away_swap (soft_odds anchor_odds : List (String × ℝ)) :
    Except Unit (List (String × ℝ)) := do
  let normal_probs ← devigF soft_odds
  let anchor_probs ← devigF anchor_odds
  match normal_probs, anchor_probs with
  | some (np0 :: npr), some (ap0 :: apr) =>
    let normal_div := divergence (np0 :: npr) (ap0 :: apr)
    if (List.lookup "home" soft_odds).isSome ∧ (List.lookup "away" soft_odds).isSome then do
      let swapped_probs ← remove_vig_multiplicative (swappedOdds soft_odds)
      match swapped_probs with
      | some (sp0 :: spr) =>
        let swapped_div := divergence (sp0 :: spr) (ap0 :: apr)
        if swapped_div + 0.05 < normal_div then pure (sp0 :: spr)
        else pure (np0 :: npr)
      | _ => pure (np0 :: npr)
    else pure (np0 :: npr)
  | some (np0 :: npr), _ => pure (np0 :: npr)
  | _, _ => pure []

/-- The soft-side probabilities for one market: `check_home_away_swap` for the
three-way market, plain de-vig otherwise (the swap result, a dict, is wrapped
in `some` to share the falsiness test with the `Optional` de-vig result). -/
noncomputable def softProbsFor (mt : String) (softMkt anchorMkt : List (String × ℝ)) :
    Except Unit (Option (List (String × ℝ))) :=
  if mt = "1x2" then do
    let r ← check_home_away_swap softMkt anchorMkt
    pure (some r)
  else devigF softMkt

/-- The body of the `for outcome in anchor_probs.keys()` loop of
`generate_value_bets` for one outcome `oc` (an `(outcome, true_prob)` pair of
`anchor_probs`): a missing outcome in the raw soft market is a `continue`;
a missing key in the anchor market dict or in `soft_probs` would be an
uncaught `KeyError`. -/
noncomputable def processOutcome (bankroll min_edge : ℝ) (book_name mt : String)
    (softEv : UnifiedEvent) (softMkt anchorMkt soft_probs : List (String × ℝ))
    (oc : String × ℝ) : Except Unit (List ValueBet) :=
  match List.lookup oc.1 softMkt with
  | none => .ok []
  | some so =>
    match List.lookup oc.1 anchorMkt with
    | none => .error ()
    | some ao =>
      let edge := calculate_edge oc.2 so
      if min_edge ≤ edge then
        match List.lookup oc.1 soft_probs with
        | none => .error ()
        | some sp =>
          let stake := kelly_stake edge so bankroll KELLY_FRACTION
          .ok [⟨softEv.league, softEv.kickoff_utc, softEv.home, softEv.away, book_name,
                mt, oc.1, so, ao, sp, oc.2, edge * 100, stake, stake * edge⟩]
      else .ok []

/-- The body of the `for market_type in ["1x2", "ou_2_5", "btts"]` loop of
`generate_value_bets` for one matched pair and one market type. -/
noncomputable def processMarket (bankroll min_edge : ℝ) (book_name : String)
    (softEv anchorEv : UnifiedEvent) (mt : String) : Except Unit (List ValueBet) :=
  match List.lookup mt softEv.markets, List.lookup mt anchorEv.markets with
  | some softMkt, some anchorMkt => do
    let sp ← softProbsFor mt softMkt anchorMkt
    let ap ← devigF anchorMkt
    match sp, ap with
    | some (s0 :: srest), some (a0 :: arest) =>
      (a0 :: arest).foldlM (fun acc oc => do
        let bs ← processOutcome bankroll min_edge book_name mt softEv softMkt anchorMkt
          (s0 :: srest) oc
        pure (acc ++ bs)) []
    | _, _ => .ok []
  | _, _ => .ok []

/-- The accumulation phase of `generate_value_bets`: every `ValueBet` appended
to `value_bets`, in emission order, before the final sort. -/
noncomputable def collectBets (sim : String → String → ℝ)
    (anchor_events : List UnifiedEvent) (soft_books : List (String × List UnifiedEvent))
    (time_tolerance : ℤ) (min_edge bankroll : ℝ) : Except Unit (List ValueBet) :=
  soft_books.foldlM (fun acc bk =>
    (EventMatcher.match_events sim bk.2 anchor_events time_tolerance
        TEAM_SIMILARITY_THRESHOLD).foldlM
      (fun acc2 pr =>
        (["1x2", "ou_2_5", "btts"] : List String).foldlM (fun acc3 mt => do
          let bs ← processMarket bankroll min_edge bk.1 pr.1 pr.2 mt
          pure (acc3 ++ bs)) acc2) acc) []

/-- Comparison used to model `value_bets.sort(key=lambda x: x.edge_percentage,
reverse=True)`: a stable descending sort by edge percentage. -/
noncomputable def sortLe (x y : ValueBet) : Bool :=
  decide (y.edge_percentage ≤ x.edge_percentage)

/-- Model of `ValueAnalyzer.generate_value_bets`. -/
noncomputable def generate_value_bets (sim : String → String → ℝ)
    (anchor_events : List UnifiedEvent) (soft_books : List (String × List UnifiedEvent))
    (time_tolerance : ℤ) (min_edge bankroll : ℝ) : Except Unit (List ValueBet) := do
  let value_bets ← collectBets sim anchor_events soft_books time_tolerance min_edge bankroll
  pure (value_bets.mergeSort sortLe)

end ValueAnalyzer

/-! ## Supporting lemmas for the vig-removal model -/

namespace ValueAnalyzer

lemma stripAux_map_wrap (odds : List (String × ℝ)) :
    stripAux (odds.map (fun kv => (kv.1, some kv.2))) =
      (stripAux odds).map (fun kv => (kv.1, some kv.2)) := by
  simp only [stripAux, List.filter_map]
  rfl

lemma stripAux_eq_self {α : Type} (l : List (String × α))
    (h : ∀ kv ∈ l, kv.1 ≠ "margin" ∧ kv.1 ≠ "line") : stripAux l = l := by
  rw [stripAux, List.filter_filter]
  refine List.filter_eq_self.mpr (fun kv hkv => ?_)
  simp [(h kv hkv).1, (h kv hkv).2]

lemma firstBadVal_map_wrap (l : List (String × ℝ)) (h : ∀ kv ∈ l, kv.2 ≠ 0) :
    firstBadVal (l.map (fun kv => (kv.1, some kv.2))) = none := by
  induction l with
  | nil => rfl
  | cons a t ih =>
    simp only [List.map_cons, firstBadVal]
    rw [if_neg (h a (by simp))]
    exact ih (fun kv hkv => h kv (by simp [hkv]))

lemma list_sum_div (l : List ℝ) (c : ℝ) :
    (l.map (fun x => x / c)).sum = l.sum / c := by
  simp only [div_eq_mul_inv]
  simpa using List.sum_map_mul_right l id c⁻¹

/-- On a stripped odds list with exactly one outcome and a nonzero odds value,
de-vig returns the degenerate certainty distribution. -/
lemma devigF_of_strip_one (odds : List (String × ℝ)) (a : String × ℝ)
    (hs : stripAux odds = [a]) (ha : a.2 ≠ 0) :
    devigF odds = .ok (some [(a.1, 1)]) := by
  have hb : firstBadVal [(a.1, some a.2)] = none := by
    simp only [firstBadVal]
    rw [if_neg ha]
  simp only [devigF, remove_vig_multiplicative, stripAux_map_wrap, hs, List.map_cons,
    List.map_nil, hb]

/-- On a stripped odds list with at least two outcomes, all positive, de-vig
succeeds and returns the closed form `devigPos`. -/
lemma devigF_of_strip_pos (odds s : List (String × ℝ)) (hs : stripAux odds = s)
    (h2 : 2 ≤ s.length) (hpos : ∀ kv ∈ s, 0 < kv.2) :
    devigF odds = .ok (some (devigPos s)) := by
  have hne : ∀ kv ∈ s, kv.2 ≠ 0 := fun kv h => ne_of_gt (hpos kv h)
  obtain ⟨a, s1, rfl⟩ : ∃ a s1, s = a :: s1 := by
    cases s with
    | nil => simp at h2
    | cons a s1 => exact ⟨a, s1, rfl⟩
  obtain ⟨b, s2, rfl⟩ : ∃ b s2, s1 = b :: s2 := by
    cases s1 with
    | nil => simp at h2
    | cons b s2 => exact ⟨b, s2, rfl⟩
  simp only [devigF, remove_vig_multiplicative, stripAux_map_wrap, hs]
  rw [firstBadVal_map_wrap _ hne]
  simp only [List.map_cons, List.map_map, Function.comp_def, Option.getD_some,
    List.length_cons, List.length_map, one_div_div]
  set re : ℝ := ((s2.length + 1 + 1 : ℕ) : ℝ) / (((s2.length + 1 + 1 : ℕ) : ℝ) - 1) with hre
  have hmapT : (1 / a.2 :: 1 / b.2 :: List.map (fun x => 1 / x.2) s2) =
      (a :: b :: s2).map (fun kv => 1 / kv.2) := by simp
  have hT : (0:ℝ) < (1 / a.2 :: 1 / b.2 :: List.map (fun x => 1 / x.2) s2).sum := by
    rw [hmapT]
    refine List.sum_pos _ (fun x hx => ?_) (by simp)
    obtain ⟨kv, hkv, rfl⟩ := List.mem_map.mp hx
    exact one_div_pos.mpr (hpos kv hkv)
  rw [if_neg (ne_of_gt hT)]
  set T := (1 / a.2 :: 1 / b.2 :: List.map (fun x => 1 / x.2) s2).sum with hTdef
  have hTr : (0:ℝ) < T ^ re := Real.rpow_pos_of_pos hT re
  have hAlist : ((1/a.2)^re / T^re :: (1/b.2)^re / T^re ::
        List.map (fun x => (1/x.2)^re / T^re) s2)
      = ((1/a.2)^re :: (1/b.2)^re :: List.map (fun x => (1/x.2)^re) s2).map
          (fun y => y / T^re) := by
    simp [List.map_map]
  have hS : (0:ℝ) < ((1/a.2)^re :: (1/b.2)^re :: List.map (fun x => (1/x.2)^re) s2).sum := by
    have hmapS : ((1/a.2)^re :: (1/b.2)^re :: List.map (fun x => (1/x.2)^re) s2) =
        (a :: b :: s2).map (fun kv => (1/kv.2)^re) := by simp
    rw [hmapS]
    refine List.sum_pos _ (fun x hx => ?_) (by simp)
    obtain ⟨kv, hkv, rfl⟩ := List.mem_map.mp hx
    exact Real.rpow_pos_of_pos (one_div_pos.mpr (hpos kv hkv)) re
  have hAval : ((1/a.2)^re / T^re :: (1/b.2)^re / T^re ::
        List.map (fun x => (1/x.2)^re / T^re) s2).sum
      = ((1/a.2)^re :: (1/b.2)^re :: List.map (fun x => (1/x.2)^re) s2).sum / T^re := by
    rw [hAlist, list_sum_div]
  have hA : (0:ℝ) < ((1/a.2)^re / T^re :: (1/b.2)^re / T^re ::
      List.map (fun x => (1/x.2)^re / T^re) s2).sum := by
    rw [hAval]
    exact div_pos hS hTr
  rw [if_neg (ne_of_gt hA), hAval]
  simp only [devigPos, List.map_cons, List.length_cons, List.length_map,
    div_div_div_cancel_right₀ (ne_of_gt hTr)]

lemma devigPos_fst (s : List (String × ℝ)) :
    (devigPos s).map Prod.fst = s.map Prod.fst := by
  simp [devigPos, List.map_map, Function.comp_def]

lemma devigPos_sum_one (s : List (String × ℝ)) (hne : s ≠ [])
    (hpos : ∀ kv ∈ s, 0 < kv.2) :
    ((devigPos s).map Prod.snd).sum = 1 := by
  set re : ℝ := ((s.length : ℝ) / ((s.length : ℝ) - 1)) with hre
  have hS : (0:ℝ) < (s.map (fun kv2 => (1 / kv2.2) ^ re)).sum := by
    refine List.sum_pos _ (fun x hx => ?_) (by simpa using hne)
    obtain ⟨kv, hkv, rfl⟩ := List.mem_map.mp hx
    exact Real.rpow_pos_of_pos (one_div_pos.mpr (hpos kv hkv)) re
  have hmap : (devigPos s).map Prod.snd =
      (s.map (fun kv2 => (1 / kv2.2) ^ re)).map
        (fun y => y / (s.map (fun kv2 => (1 / kv2.2) ^ re)).sum) := by
    simp [devigPos, List.map_map, Function.comp_def]
  rw [hmap, list_sum_div, div_self (ne_of_gt hS)]

lemma firstBadVal_map_wrap_ne_true (l : List (String × ℝ)) :
    firstBadVal (l.map (fun kv => (kv.1, some kv.2))) ≠ some true := by
  induction l with
  | nil => simp [firstBadVal]
  | cons a t ih =>
    simp only [List.map_cons, firstBadVal]
    by_cases h0 : a.2 = 0
    · rw [if_pos h0]
      simp
    · rw [if_neg h0]
      exact ih

lemma firstBadVal_map_wrap_of_zero (l : List (String × ℝ))
    (h : ∃ kv ∈ l, kv.2 = 0) :
    firstBadVal (l.map (fun kv => (kv.1, some kv.2))) = some false := by
  induction l with
  | nil => simp at h
  | cons a t ih =>
    simp only [List.map_cons, firstBadVal]
    by_cases h0 : a.2 = 0
    · rw [if_pos h0]
    · rw [if_neg h0]
      apply ih
      rcases h with ⟨kv, hm, hz⟩
      rcases List.mem_cons.mp hm with rfl | hmt
      · exact absurd hz h0
      · exact ⟨kv, hmt, hz⟩

lemma devigF_ne_error (odds : List (String × ℝ)) :
    ∃ r, devigF odds = .ok r := by
  simp only [devigF, remove_vig_multiplicative, stripAux_map_wrap]
  rcases hfb : firstBadVal ((stripAux odds).map (fun kv => (kv.1, some kv.2))) with _ | b
  · rw [hfb]
    rcases (stripAux odds) with _ | ⟨a, _ | ⟨b2, t⟩⟩
    · exact ⟨none, rfl⟩
    · exact ⟨_, rfl⟩
    · simp only [List.map_cons]
      split
      · exact ⟨none, rfl⟩
      · split
        · exact ⟨none, rfl⟩
        · exact ⟨_, rfl⟩
  · cases b
    · rw [hfb]
      exact ⟨none, rfl⟩
    · exact absurd hfb (firstBadVal_map_wrap_ne_true _)

/-- Two-outcome evaluation of de-vig: with `n = 2` the power exponent is `2`
and the closed form is rational in the odds. -/
lemma devigF_two (k1 k2 : String) (a b : ℝ)
    (h1m : k1 ≠ "margin") (h1l : k1 ≠ "line") (h2m : k2 ≠ "margin") (h2l : k2 ≠ "line")
    (ha : a ≠ 0) (hb : b ≠ 0) (hT : 1 / a + 1 / b ≠ 0) :
    devigF [(k1, a), (k2, b)] = .ok (some
      [(k1, (1/a)^(2:ℕ) / ((1/a)^(2:ℕ) + (1/b)^(2:ℕ))),
       (k2, (1/b)^(2:ℕ) / ((1/a)^(2:ℕ) + (1/b)^(2:ℕ)))]) := by
  have hstrip : stripAux [(k1, some a), (k2, some b)] = [(k1, some a), (k2, some b)] := by
    simp [stripAux, h1m, h1l, h2m, h2l]
  have hfb : firstBadVal [(k1, some a), (k2, some b)] = none := by
    simp only [firstBadVal]
    rw [if_neg ha, if_neg hb]
  simp only [devigF, List.map_cons, List.map_nil, remove_vig_multiplicative, hstrip, hfb]
  simp only [List.map_cons, List.map_nil, Option.getD_some,
    List.length_cons, List.length_nil, List.sum_cons, List.sum_nil, one_div_div]
  have he : ((0 + 1 + 1 : ℕ) : ℝ) / (((0 + 1 + 1 : ℕ) : ℝ) - 1) = 2 := by norm_num
  rw [he]
  simp only [Real.rpow_two]
  have hT0 : 1 / a + (1 / b + 0) ≠ 0 := by simpa using hT
  rw [if_neg hT0]
  have hT2 : (1 / a + (1 / b + 0)) ^ (2:ℕ) ≠ 0 := pow_ne_zero 2 hT0
  have hD : (1/a)^(2:ℕ) / (1 / a + (1 / b + 0)) ^ (2:ℕ) +
      ((1/b)^(2:ℕ) / (1 / a + (1 / b + 0)) ^ (2:ℕ) + 0) =
      ((1/a)^(2:ℕ) + (1/b)^(2:ℕ)) / (1 / a + (1 / b + 0)) ^ (2:ℕ) := by ring
  have hS : ((1/a)^(2:ℕ) + (1/b)^(2:ℕ)) ≠ 0 :=
    ne_of_gt (add_pos (pow_two_pos_of_ne_zero (one_div_ne_zero ha))
      (pow_two_pos_of_ne_zero (one_div_ne_zero hb)))
  rw [hD, if_neg (div_ne_zero hS hT2)]
  simp only [div_div_div_cancel_right₀ hT2]

end ValueAnalyzer

/-! ## Claim theorems: de-vig, Kelly, edge -/

open ValueAnalyzer

/-- C1: for every odds mapping with at least one outcome left after stripping
the auxiliary `margin`/`line` keys, all of whose outcome odds exceed 1.0,
`remove_vig_multiplicative` returns a probability mapping over exactly those
outcome keys whose values sum to exactly 1 (in exact real arithmetic). -/
theorem C1_devig_sums_to_one (odds : List (String × ℝ))
    (hne : stripAux odds ≠ [])
    (hodds : ∀ kv ∈ stripAux odds, (1 : ℝ) < kv.2) :
    ∃ probs : List (String × ℝ),
      devigF odds = .ok (some probs) ∧
      probs.map Prod.fst = (stripAux odds).map Prod.fst ∧
      (probs.map Prod.snd).sum = 1 := by
  have hpos : ∀ kv ∈ stripAux odds, 0 < kv.2 :=
    fun kv h => lt_trans one_pos (hodds kv h)
  rcases hs : stripAux odds with _ | ⟨a, t⟩
  · exact absurd hs hne
  rcases t with _ | ⟨b, t2⟩
  · have ha : a.2 ≠ 0 := ne_of_gt (hpos a (by rw [hs]; simp))
    exact ⟨[(a.1, 1)], devigF_of_strip_one odds a hs ha, by simp, by simp⟩
  · rw [hs] at hpos
    exact ⟨devigPos (a :: b :: t2), devigF_of_strip_pos odds _ hs (by simp) hpos,
      devigPos_fst _, devigPos_sum_one _ (by simp) hpos⟩

/-- Witness for C1 at the concrete two-outcome fair coin market. -/
theorem C1_witness :
    stripAux [("home", (2:ℝ)), ("away", 2)] ≠ [] ∧
    ∃ probs : List (String × ℝ),
      devigF [("home", (2:ℝ)), ("away", 2)] = .ok (some probs) ∧
      probs.map Prod.fst = (stripAux [("home", (2:ℝ)), ("away", 2)]).map Prod.fst ∧
      (probs.map Prod.snd).sum = 1 := by
  have hs : stripAux [("home", (2:ℝ)), ("away", 2)] = [("home", (2:ℝ)), ("away", 2)] := by
    refine stripAux_eq_self _ (fun kv hkv => ?_)
    rcases List.mem_cons.mp hkv with rfl | hkv2
    · exact ⟨by decide, by decide⟩
    · rcases List.mem_singleton.mp hkv2 with rfl
      exact ⟨by decide, by decide⟩
  refine ⟨by rw [hs]; simp, C1_devig_sums_to_one _ (by rw [hs]; simp) ?_⟩
  intro kv hkv
  rw [hs] at hkv
  rcases List.mem_cons.mp hkv with rfl | hkv2
  · norm_num
  · rcases List.mem_singleton.mp hkv2 with rfl
    norm_num

/-- C2 fails as stated: with a negative bankroll and a positive edge,
`kelly_stake` returns a strictly negative stake (here `-5`), not a
non-negative one and not zero. -/
theorem C2_counterexample :
    kelly_stake 0.1 2 (-100) KELLY_FRACTION = -5 ∧
    kelly_stake 0.1 2 (-100) KELLY_FRACTION < 0 := by
  have h : kelly_stake 0.1 2 (-100) KELLY_FRACTION = -5 := by
    rw [kelly_stake, if_neg (by norm_num)]
    norm_num [KELLY_FRACTION, MAX_STAKE_PERCENTAGE, max_def, min_def]
  exact ⟨h, by rw [h]; norm_num⟩

/-- C2 (amended): `kelly_stake` returns exactly 0 whenever `edge ≤ 0` or
`odds ≤ 1.0`, and exactly 0 for a zero bankroll; for every non-negative
bankroll the result is non-negative and never exceeds
`bankroll * MAX_STAKE_PERCENTAGE`.  (For a negative bankroll the result can be
negative, as the counterexample shows.) -/
theorem C2_kelly_stake_caps (edge odds bankroll kf : ℝ) :
    (edge ≤ 0 ∨ odds ≤ 1 → kelly_stake edge odds bankroll kf = 0) ∧
    (0 ≤ bankroll → 0 ≤ kelly_stake edge odds bankroll kf ∧
      kelly_stake edge odds bankroll kf ≤ bankroll * MAX_STAKE_PERCENTAGE) ∧
    (bankroll = 0 → kelly_stake edge odds bankroll kf = 0) := by
  unfold kelly_stake
  by_cases h : edge ≤ 0 ∨ odds ≤ 1
  · rw [if_pos h]
    exact ⟨fun _ => rfl, fun hb => ⟨le_refl 0,
      mul_nonneg hb (by norm_num [MAX_STAKE_PERCENTAGE])⟩, fun _ => rfl⟩
  · rw [if_neg h]
    refine ⟨fun hc => absurd hc h, fun hb => ⟨?_, min_le_right _ _⟩, fun hb0 => ?_⟩
    · exact le_min (mul_nonneg (le_max_left 0 _) hb)
        (mul_nonneg hb (by norm_num [MAX_STAKE_PERCENTAGE]))
    · subst hb0
      simp

/-- Witness for C2 (amended) at a concrete positive bankroll. -/
theorem C2_witness :
    (0:ℝ) ≤ 1000 ∧ kelly_stake 0.1 2 1000 0.25 ≤ 1000 * MAX_STAKE_PERCENTAGE :=
  ⟨by norm_num, ((C2_kelly_stake_caps 0.1 2 1000 0.25).2.1 (by norm_num)).2⟩

/-- C4 fails as stated: on the non-positive odds mapping
`{a: -2, b: 3}` `remove_vig_multiplicative` does not return `None`; it
returns the mapping `{a: 9/13, b: 4/13}` (the even power `n/(n-1) = 2` makes
the negative implied probability positive again). -/
theorem C4_counterexample :
    devigF [("a", (-2:ℝ)), ("b", 3)] = .ok (some [("a", 9/13), ("b", 4/13)]) := by
  rw [devigF_two "a" "b" (-2) 3 (by decide) (by decide) (by decide) (by decide)
    (by norm_num) (by norm_num) (by norm_num)]
  norm_num

/-- C4 (amended): `remove_vig_multiplicative` on an all-float odds dict never
lets an exception escape; it returns `None` when no outcome remains after
stripping `margin`/`line` and when some remaining odds value is zero
(zero-division), and `{outcome: 1.0}` when exactly one outcome with nonzero
odds remains.  (On merely negative odds it can return a mapping instead of
`None`, as the counterexample shows.) -/
theorem C4_devig_failure_modes (odds : List (String × ℝ)) :
    (∃ r, devigF odds = .ok r) ∧
    (stripAux odds = [] → devigF odds = .ok none) ∧
    ((∃ kv ∈ stripAux odds, kv.2 = 0) → devigF odds = .ok none) ∧
    (∀ a : String × ℝ, stripAux odds = [a] → a.2 ≠ 0 →
      devigF odds = .ok (some [(a.1, 1)])) := by
  refine ⟨devigF_ne_error odds, fun h0 => ?_, fun hz => ?_, fun a hs ha =>
    devigF_of_strip_one odds a hs ha⟩
  · simp only [devigF, remove_vig_multiplicative, stripAux_map_wrap, h0]
    rfl
  · simp only [devigF, remove_vig_multiplicative, stripAux_map_wrap]
    rw [firstBadVal_map_wrap_of_zero _ hz]

/-- Witness for C4 (amended): a zero odds value yields `None`, and a
market reduced to a single outcome yields the certainty distribution. -/
theorem C4_witness :
    devigF [("over", (0:ℝ)), ("under", 2)] = .ok none ∧
    devigF [("margin", (7:ℝ)), ("yes", 4)] = .ok (some [("yes", 1)]) := by
  constructor
  · exact (C4_devig_failure_modes _).2.2.1 ⟨("over", 0), by simp [stripAux], rfl⟩
  · exact (C4_devig_failure_modes _).2.2.2 ("yes", 4) (by simp [stripAux]) (by norm_num)

/-- C10: the probability that `kelly_stake` backs out of an edge produced by
`calculate_edge` is exactly the original probability: algebraically
`(1 + calculate_edge(p, odds)) / odds = p` for `odds > 0`, and consequently
`kelly_stake` applied to such an edge sizes the stake with `p` itself
(`kelly_stake_from_true_prob`). -/
theorem C10_edge_kelly_round_trip (p odds bankroll kf : ℝ) (h : 0 < odds) :
    (1 + calculate_edge p odds) / odds = p ∧
    kelly_stake (calculate_edge p odds) odds bankroll kf =
      kelly_stake_from_true_prob p odds bankroll kf := by
  have hne : odds ≠ 0 := ne_of_gt h
  have hp : (1 + (p * odds - 1)) / odds = p := by
    field_simp
  constructor
  · simpa [calculate_edge] using hp
  · simp only [kelly_stake, kelly_stake_from_true_prob, calculate_edge, hp]

/-- Witness for C10 at `p = 0.6`, `odds = 2`. -/
theorem C10_witness :
    (1 + calculate_edge 0.6 2) / 2 = (0.6 : ℝ) ∧
    kelly_stake (calculate_edge 0.6 2) 2 1000 0.25 =
      kelly_stake_from_true_prob 0.6 2 1000 0.25 :=
  C10_edge_kelly_round_trip 0.6 2 1000 0.25 (by norm_num)

/-! ## Supporting lemmas for the event matcher -/

namespace EventMatcher

lemma candidatesGo_mem (sim : String → String → ℝ) (tol : ℤ) (minSim : ℝ)
    (used : Finset ℕ) (leagueL : String) (kickL : ℤ) (lh la : String)
    (events : List UnifiedEvent) :
    ∀ (i0 : ℕ) (c : Candidate),
      c ∈ candidatesGo sim tol minSim used leagueL kickL lh la i0 events →
      c.idx ∉ used ∧ i0 ≤ c.idx ∧ c.idx - i0 < events.length ∧
      events[(c.idx - i0)]? = some c.ev ∧
      c.ev.league = leagueL ∧
      |parse_datetime c.ev.kickoff_utc - kickL| ≤ tol * 60 ∧
      c.score = |parse_datetime c.ev.kickoff_utc - kickL| +
        (if c.isExact then 0 else 1000) := by
  induction events with
  | nil =>
    intro i0 c h
    simp [candidatesGo] at h
  | cons re rest ih =>
    intro i0 c hmem
    simp only [candidatesGo] at hmem
    have tailStep : c ∈ candidatesGo sim tol minSim used leagueL kickL lh la (i0 + 1) rest →
        c.idx ∉ used ∧ i0 ≤ c.idx ∧ c.idx - i0 < (re :: rest).length ∧
        (re :: rest)[(c.idx - i0)]? = some c.ev ∧
        c.ev.league = leagueL ∧
        |parse_datetime c.ev.kickoff_utc - kickL| ≤ tol * 60 ∧
        c.score = |parse_datetime c.ev.kickoff_utc - kickL| +
          (if c.isExact then 0 else 1000) := by
      intro h
      obtain ⟨hu, hle, hlen, hget, hrest⟩ := ih (i0 + 1) c h
      have hk : c.idx - i0 = (c.idx - (i0 + 1)) + 1 := by omega
      refine ⟨hu, by omega, by simp only [List.length_cons]; omega, ?_, hrest⟩
      rw [hk, List.getElem?_cons_succ]
      exact hget
    by_cases h1 : i0 ∈ used ∨ re.league ≠ leagueL
    · rw [if_pos h1] at hmem
      exact tailStep hmem
    · rw [if_neg h1] at hmem
      push_neg at h1
      by_cases h2 : (decide (lh = normalize_team_name re.home ∧
          la = normalize_team_name re.away)) = true ∨
          minSim ≤ (sim lh (normalize_team_name re.home) +
            sim la (normalize_team_name re.away)) / 2
      · rw [if_pos h2] at hmem
        by_cases h3 : within_time_window kickL (parse_datetime re.kickoff_utc) tol = true
        · rw [if_pos h3] at hmem
          rcases List.mem_cons.mp hmem with rfl | htail
          · have hwin : |parse_datetime re.kickoff_utc - kickL| ≤ tol * 60 := by
              have := of_decide_eq_true h3
              rw [abs_sub_comm]
              exact this
            refine ⟨h1.1, le_refl i0, by simp, by simp, h1.2, hwin, ?_⟩
            by_cases hex : (decide (lh = normalize_team_name re.home ∧
                la = normalize_team_name re.away)) = true
            · simp only [hex]
              simp
            · simp only [Bool.not_eq_true] at hex
              simp only [hex]
              simp
          · exact tailStep htail
        · rw [if_neg h3] at hmem
          exact tailStep hmem
      · rw [if_neg h2] at hmem
        exact tailStep hmem

lemma candidatesFor_mem (sim : String → String → ℝ) (tol : ℤ) (minSim : ℝ)
    (used : Finset ℕ) (lev : UnifiedEvent) (right : List UnifiedEvent)
    (c : Candidate) (h : c ∈ candidatesFor sim tol minSim used lev right) :
    c.idx ∉ used ∧ c.idx < right.length ∧ right[c.idx]? = some c.ev ∧
    c.ev.league = lev.league ∧
    |parse_datetime c.ev.kickoff_utc - parse_datetime lev.kickoff_utc| ≤ tol * 60 ∧
    c.score = |parse_datetime c.ev.kickoff_utc - parse_datetime lev.kickoff_utc| +
      (if c.isExact then 0 else 1000) := by
  rw [candidatesFor] at h
  obtain ⟨hu, -, hlen, hget, hl, hw, hs⟩ := candidatesGo_mem sim tol minSim used
    lev.league (parse_datetime lev.kickoff_utc) (normalize_team_name lev.home)
    (normalize_team_name lev.away) right 0 c h
  exact ⟨hu, by simpa using hlen, by simpa using hget, hl, hw, hs⟩

lemma bestCandidate_mem (c : Candidate) (cs : List Candidate) :
    bestCandidate c cs ∈ c :: cs := by
  induction cs generalizing c with
  | nil => simp [bestCandidate]
  | cons x xs ih =>
    simp only [bestCandidate, List.foldl_cons]
    have h := ih (if x.score < c.score then x else c)
    simp only [bestCandidate] at h
    rcases List.mem_cons.mp h with h2 | h2
    · rw [h2]
      by_cases hs : x.score < c.score
      · rw [if_pos hs]
        simp
      · rw [if_neg hs]
        simp
    · simp [h2]

lemma matchGo_spec (sim : String → String → ℝ) (right : List UnifiedEvent)
    (tol : ℤ) (minSim : ℝ) :
    ∀ (ls : List UnifiedEvent) (used : Finset ℕ),
      (∀ t ∈ matchGo sim right tol minSim ls used,
        t.2.1 ∉ used ∧ t.2.1 < right.length ∧ right[t.2.1]? = some t.2.2 ∧
        t.2.2.league = t.1.league ∧
        |parse_datetime t.2.2.kickoff_utc - parse_datetime t.1.kickoff_utc| ≤ tol * 60) ∧
      ((matchGo sim right tol minSim ls used).map (fun t => t.1)).Sublist ls ∧
      ((matchGo sim right tol minSim ls used).map (fun t => t.2.1)).Nodup := by
  intro ls
  induction ls with
  | nil =>
    intro used
    simp [matchGo]
  | cons lev rest ih =>
    intro used
    rcases hc : candidatesFor sim tol minSim used lev right with _ | ⟨c, cs⟩
    · simp only [matchGo, hc]
      exact ⟨(ih used).1, (ih used).2.1.cons _, (ih used).2.2⟩
    · simp only [matchGo, hc]
      have hbmem : bestCandidate c cs ∈ candidatesFor sim tol minSim used lev right := by
        rw [hc]
        exact bestCandidate_mem c cs
      obtain ⟨hnotused, hlen, hget, hleague, hwin, -⟩ :=
        candidatesFor_mem sim tol minSim used lev right _ hbmem
      have ihc := ih (insert (bestCandidate c cs).idx used)
      refine ⟨?_, (ihc.2.1).cons₂ _, ?_⟩
      · intro t ht
        rcases List.mem_cons.mp ht with rfl | ht2
        · exact ⟨hnotused, hlen, hget, hleague, hwin⟩
        · have h5 := ihc.1 t ht2
          exact ⟨fun hu => h5.1 (Finset.mem_insert_of_mem hu), h5.2⟩
      · refine List.nodup_cons.mpr ⟨?_, ihc.2.2⟩
        intro hmem2
        obtain ⟨t, ht, hteq⟩ := List.mem_map.mp hmem2
        exact (ihc.1 t ht).1 (hteq ▸ Finset.mem_insert_self _ used)

end EventMatcher

/-! ## Claim theorems: event matcher -/

/-- C6: every output of `match_events` pairs events of the same league with
kickoffs within the time tolerance; the emitted left events form a
subsequence of the left input (so no left event, by position, is used twice),
and the chosen right-side indices are pairwise distinct (so no right event,
by position, is ever assigned to two different left events), for every
similarity function. -/
theorem C6_matcher_invariants (sim : String → String → ℝ)
    (left right : List UnifiedEvent) (tol : ℤ) (minSim : ℝ) :
    (∀ p ∈ EventMatcher.match_events sim left right tol minSim,
        p.1.league = p.2.league ∧
        within_time_window (parse_datetime p.1.kickoff_utc)
          (parse_datetime p.2.kickoff_utc) tol = true) ∧
    ((EventMatcher.match_events sim left right tol minSim).map Prod.fst).Sublist left ∧
    ((EventMatcher.matchGo sim right tol minSim left ∅).map (fun t => t.2.1)).Nodup ∧
    (∀ t ∈ EventMatcher.matchGo sim right tol minSim left ∅,
        right[t.2.1]? = some t.2.2) ∧
    EventMatcher.match_events sim left right tol minSim =
      (EventMatcher.matchGo sim right tol minSim left ∅).map (fun t => (t.1, t.2.2)) := by
  obtain ⟨h1, h2, h3⟩ := EventMatcher.matchGo_spec sim right tol minSim left ∅
  refine ⟨?_, ?_, h3, fun t ht => (h1 t ht).2.2.1, rfl⟩
  · intro p hp
    obtain ⟨t, ht, rfl⟩ := List.mem_map.mp hp
    have h4 := h1 t ht
    refine ⟨(h4.2.2.2.1).symm, ?_⟩
    rw [within_time_window, decide_eq_true_eq, abs_sub_comm]
    exact h4.2.2.2.2
  · have hcomp : (EventMatcher.match_events sim left right tol minSim).map Prod.fst =
        (EventMatcher.matchGo sim right tol minSim left ∅).map (fun t => t.1) := by
      rw [EventMatcher.match_events, List.map_map]
      rfl
    rw [hcomp]
    exact h2

/-- C5 (amended): provided the time tolerance satisfies `tol * 60 < 1000`
(in particular for the default 12 minutes), among the qualifying candidates
for one left event an exact candidate always scores strictly lower than a
fuzzy one, and among candidates of the same certainty the score order is
exactly the kickoff-closeness order.  (For tolerances above 1000 seconds the
claim fails, see the counterexample.) -/
theorem C5_exact_beats_fuzzy (sim : String → String → ℝ)
    (tol : ℤ) (minSim : ℝ) (used : Finset ℕ) (lev : UnifiedEvent)
    (right : List UnifiedEvent) (htol : tol * 60 < 1000)
    (c1 c2 : EventMatcher.Candidate)
    (h1 : c1 ∈ EventMatcher.candidatesFor sim tol minSim used lev right)
    (h2 : c2 ∈ EventMatcher.candidatesFor sim tol minSim used lev right) :
    (c1.isExact = true → c2.isExact = false → c1.score < c2.score) ∧
    (c1.isExact = c2.isExact →
      (c1.score < c2.score ↔
        |parse_datetime c1.ev.kickoff_utc - parse_datetime lev.kickoff_utc| <
          |parse_datetime c2.ev.kickoff_utc - parse_datetime lev.kickoff_utc|)) := by
  obtain ⟨-, -, -, -, hw1, hs1⟩ := EventMatcher.candidatesFor_mem sim tol minSim used lev right c1 h1
  obtain ⟨-, -, -, -, hw2, hs2⟩ := EventMatcher.candidatesFor_mem sim tol minSim used lev right c2 h2
  have hd2 : 0 ≤ |parse_datetime c2.ev.kickoff_utc - parse_datetime lev.kickoff_utc| :=
    abs_nonneg _
  constructor
  · intro he1 he2
    have e1 : c1.score =
        |parse_datetime c1.ev.kickoff_utc - parse_datetime lev.kickoff_utc| := by
      rw [hs1, he1]
      simp
    have e2 : c2.score =
        |parse_datetime c2.ev.kickoff_utc - parse_datetime lev.kickoff_utc| + 1000 := by
      rw [hs2, he2]
      simp
    rw [e1, e2]
    linarith [hw1, hd2]
  · intro hee
    rw [hs1, hs2, hee]
    exact add_lt_add_iff_right _

/-! ## Supporting lemmas for the team-name normalizer -/

lemma lookup_mem {α : Type} (l : List (String × α)) (k : String) (v : α)
    (h : List.lookup k l = some v) : (k, v) ∈ l := by
  induction l with
  | nil => simp [List.lookup] at h
  | cons a t ih =>
    rcases a with ⟨k1, v1⟩
    rw [List.lookup] at h
    by_cases he : k == k1
    · rw [he] at h
      simp only [Option.some.injEq] at h
      subst h
      have : k = k1 := by simpa using he
      subst this
      exact List.mem_cons_self _ _
    · rw [Bool.not_eq_true] at he
      rw [he] at h
      exact List.mem_cons_of_mem _ (ih h)

lemma collapseGo_filter (t : List Char) :
    ∀ b, (collapseGo b t).filter (fun c => !(isPySpace c)) =
      t.filter (fun c => !(isPySpace c)) := by
  induction t with
  | nil => intro b; rfl
  | cons c cs ih =>
    intro b
    rw [collapseGo]
    by_cases hc : isPySpace c = true
    · rw [if_pos hc]
      have hsp : isPySpace ' ' = true := by decide
      by_cases hb : b
      · subst hb
        rw [if_pos rfl]
        rw [ih true, List.filter_cons, hc]
        simp
      · simp only [Bool.not_eq_true] at hb
        subst hb
        rw [if_neg (by simp)]
        rw [List.filter_cons, List.filter_cons, hc, hsp]
        simp [ih true]
    · simp only [Bool.not_eq_true] at hc
      rw [if_neg (by simp [hc])]
      rw [List.filter_cons, List.filter_cons, hc]
      simp [ih false]

lemma collapseGo_true_all_space (t : List Char) (h : ∀ c ∈ t, isPySpace c = true) :
    collapseGo true t = [] := by
  induction t with
  | nil => rfl
  | cons c cs ih =>
    rw [collapseGo, if_pos (h c (by simp)), if_pos rfl]
    exact ih (fun c2 hc2 => h c2 (by simp [hc2]))

lemma collapseGo_false_all_space (t : List Char) (h : ∀ c ∈ t, isPySpace c = true) :
    collapseGo false t = [] ∨ collapseGo false t = [' '] := by
  cases t with
  | nil => exact Or.inl rfl
  | cons c cs =>
    right
    rw [collapseGo, if_pos (h c (by simp)), if_neg (by simp)]
    rw [collapseGo_true_all_space cs (fun c2 hc2 => h c2 (by simp [hc2]))]

lemma dropWhile_filter_not (u : List Char) :
    (u.dropWhile isPySpace).filter (fun c => !(isPySpace c)) =
      u.filter (fun c => !(isPySpace c)) := by
  induction u with
  | nil => rfl
  | cons c cs ih =>
    by_cases hc : isPySpace c = true
    · rw [List.dropWhile_cons_of_pos hc, ih, List.filter_cons, hc]
      simp
    · simp only [Bool.not_eq_true] at hc
      rw [List.dropWhile_cons_of_neg (by simp [hc])]

lemma pyStrip_filter (u : List Char) :
    (pyStrip u).filter (fun c => !(isPySpace c)) =
      u.filter (fun c => !(isPySpace c)) := by
  rw [pyStrip, List.filter_reverse, dropWhile_filter_not, List.filter_reverse,
    dropWhile_filter_not]
  rw [List.reverse_reverse]

lemma pyStrip_eq_nil_of_all_space (u : List Char) (h : ∀ c ∈ u, isPySpace c = true) :
    pyStrip u = [] := by
  have h1 : u.dropWhile isPySpace = [] := by
    rw [List.dropWhile_eq_nil_iff]
    intro x hx
    exact h x hx
  rw [pyStrip, h1]
  rfl

lemma all_space_iff_filter_nil (u : List Char) :
    (∀ c ∈ u, isPySpace c = true) ↔ u.filter (fun c => !(isPySpace c)) = [] := by
  rw [List.filter_eq_nil_iff]
  constructor
  · intro h a ha
    simp [h a ha]
  · intro h a ha
    have := h a ha
    simpa using this

lemma pyStrip_eq_nil_iff (u : List Char) :
    pyStrip u = [] ↔ ∀ c ∈ u, isPySpace c = true := by
  constructor
  · intro h
    rw [all_space_iff_filter_nil, ← pyStrip_filter, h]
    rfl
  · exact pyStrip_eq_nil_of_all_space u

lemma pyStrip_collapse_eq_nil_iff (t : List Char) :
    pyStrip (collapseGo false t) = [] ↔ ∀ c ∈ t, isPySpace c = true := by
  constructor
  · intro h
    rw [all_space_iff_filter_nil, ← collapseGo_filter t false, ← pyStrip_filter, h]
    rfl
  · intro h
    rcases collapseGo_false_all_space t h with h2 | h2
    · rw [h2]
      rfl
    · rw [h2]
      exact pyStrip_eq_nil_of_all_space _ (by simp; decide)

lemma pyStrip_forall (P : Char → Prop) (hP : ∀ c, isPySpace c = true → P c)
    (w : List Char) : (∀ c ∈ pyStrip w, P c) ↔ (∀ c ∈ w, P c) := by
  constructor
  · intro h c hc
    by_cases hsp : isPySpace c = true
    · exact hP c hsp
    · apply h
      have h1 : c ∈ w.dropWhile isPySpace := by
        have := List.takeWhile_append_dropWhile (p := isPySpace) (l := w)
        rcases List.mem_append.mp (by rw [this]; exact hc) with hin | hin
        · exact absurd (List.mem_takeWhile_imp hin) hsp
        · exact hin
      have h2 : c ∈ (w.dropWhile isPySpace).reverse.dropWhile isPySpace := by
        have hrev : c ∈ (w.dropWhile isPySpace).reverse := by simpa using h1
        have := List.takeWhile_append_dropWhile (p := isPySpace)
          (l := (w.dropWhile isPySpace).reverse)
        rcases List.mem_append.mp (by rw [this]; exact hrev) with hin | hin
        · exact absurd (List.mem_takeWhile_imp hin) hsp
        · exact hin
      rw [pyStrip]
      simpa using h2
  · intro h c hc
    apply h
    have hsub : List.Sublist (pyStrip w) w := by
      have h1 : List.Sublist (w.dropWhile isPySpace) w := List.dropWhile_sublist _
      have h2 : List.Sublist ((w.dropWhile isPySpace).reverse.dropWhile isPySpace)
          (w.dropWhile isPySpace).reverse := List.dropWhile_sublist _
      have h3 := h2.reverse
      rw [List.reverse_reverse] at h3
      exact h3.trans h1
    exact hsub.mem hc

lemma basicNormalize_eq_empty_iff (name : String) :
    basicNormalize name = "" ↔
      ∀ c ∈ name.data, isPySpace c.toLower = true ∨ c.toLower ∈ punctChars := by
  have hmk : ∀ l : List Char, (String.mk l = "") ↔ l = [] := by
    intro l
    constructor
    · intro h
      have : (String.mk l).data = ("" : String).data := by rw [h]
      simpa using this
    · intro h
      rw [h]
  rw [basicNormalize, hmk, strip_accents, collapseSpaces, pyStrip_collapse_eq_nil_iff]
  have hpunct : ∀ v : List Char,
      (∀ c ∈ punctToSpace v, isPySpace c = true) ↔
        (∀ c ∈ v, isPySpace c = true ∨ c ∈ punctChars) := by
    intro v
    rw [punctToSpace]
    constructor
    · intro h c hc
      have := h (if punctChars.contains c then ' ' else c) (List.mem_map_of_mem _ hc)
      by_cases hp : punctChars.contains c = true
      · right
        simpa using hp
      · rw [if_neg (by simp [Bool.not_eq_true] at hp ⊢; simp [hp])] at this
        exact Or.inl this
    · intro h x hx
      obtain ⟨c, hc, rfl⟩ := List.mem_map.mp hx
      rcases h c hc with hs | hp
      · by_cases hp2 : punctChars.contains c = true
        · rw [if_pos hp2]
          decide
        · rw [if_neg hp2]
          exact hs
      · rw [if_pos (by simpa using hp)]
        decide
  rw [hpunct]
  rw [pyStrip_forall (fun c => isPySpace c = true ∨ c ∈ punctChars) (fun c h => Or.inl h)]
  rw [pyLower]
  constructor
  · intro h c hc
    exact h c.toLower (List.mem_map_of_mem _ hc)
  · intro h x hx
    obtain ⟨c, hc, rfl⟩ := List.mem_map.mp hx
    exact h c hc

lemma normalize_result (name : String) (h0 : name ≠ "") :
    normalize_team_name name = basicNormalize name ∨
    ∃ v, normalize_team_name name = v ∧
      (List.lookup (basicNormalize name) TEAM_ALIASES = some v ∨
       List.lookup (String.mk (dropLeadingToken clubPrefixTokens
         (basicNormalize name).data)) TEAM_ALIASES = some v ∨
       List.lookup (String.mk (dropTrailingToken clubSuffixTokens
         (basicNormalize name).data)) TEAM_ALIASES = some v) := by
  simp only [normalize_team_name]
  rw [if_neg h0]
  cases hl1 : List.lookup (basicNormalize name) TEAM_ALIASES with
  | some v => exact Or.inr ⟨v, rfl, Or.inl rfl⟩
  | none =>
    cases hl2 : List.lookup (String.mk (dropLeadingToken clubPrefixTokens
        (basicNormalize name).data)) TEAM_ALIASES with
    | some v => exact Or.inr ⟨v, rfl, Or.inr (Or.inl rfl)⟩
    | none =>
      cases hl3 : List.lookup (String.mk (dropTrailingToken clubSuffixTokens
          (basicNormalize name).data)) TEAM_ALIASES with
      | some v => exact Or.inr ⟨v, rfl, Or.inr (Or.inr rfl)⟩
      | none => exact Or.inl rfl

set_option maxRecDepth 16384 in
lemma TEAM_ALIASES_values_ne_empty : ∀ kv ∈ TEAM_ALIASES, kv.2 ≠ "" := by decide

set_option maxRecDepth 16384 in
lemma TEAM_ALIASES_lookup_empty : List.lookup "" TEAM_ALIASES = none := by decide

/-! ## Claim theorems: team-name normalization -/

/-- C9 fails as stated: the non-empty input string consisting of a single
period normalizes to the empty string (the punctuation class maps it to a
space, which the final strip removes). -/
theorem C9_counterexample :
    normalize_team_name "." = "" ∧ ("." : String) ≠ "" := by
  constructor
  · decide
  · decide

/-- C9 (amended): `normalize_team_name` (restricted to ASCII inputs, where the
accent-stripping step is the identity) is total and returns the empty string
exactly when every character of the lowercased input is whitespace or belongs
to the punctuation class `[.\-–—/']` that normalization deletes — in
particular the output is non-empty for every input containing at least one
surviving character, and empty for the empty input; and when all three
alias-table lookups fail it returns the normalized-but-unmapped string. -/
theorem C9_normalize_empty_iff (name : String)
    (hascii : ∀ c ∈ name.data, isASCIIChar c = true) :
    (normalize_team_name name = "" ↔
      ∀ c ∈ name.data, isPySpace c.toLower = true ∨ c.toLower ∈ punctChars) ∧
    (List.lookup (basicNormalize name) TEAM_ALIASES = none →
     List.lookup (String.mk (dropLeadingToken clubPrefixTokens
       (basicNormalize name).data)) TEAM_ALIASES = none →
     List.lookup (String.mk (dropTrailingToken clubSuffixTokens
       (basicNormalize name).data)) TEAM_ALIASES = none →
     normalize_team_name name = basicNormalize name) := by
  constructor
  · by_cases h0 : name = ""
    · subst h0
      simp [normalize_team_name]
    · rcases normalize_result name h0 with he | ⟨v, he, hk⟩
      · rw [he]
        exact basicNormalize_eq_empty_iff name
      · rw [he]
        have hvne : v ≠ "" := by
          rcases hk with h | h | h
          · exact TEAM_ALIASES_values_ne_empty _ (lookup_mem _ _ _ h)
          · exact TEAM_ALIASES_values_ne_empty _ (lookup_mem _ _ _ h)
          · exact TEAM_ALIASES_values_ne_empty _ (lookup_mem _ _ _ h)
        refine iff_of_false hvne ?_
        intro hcond
        have hb : basicNormalize name = "" := (basicNormalize_eq_empty_iff name).mpr hcond
        have hnone : List.lookup "" TEAM_ALIASES = none := TEAM_ALIASES_lookup_empty
        rcases hk with h | h | h
        · rw [hb, hnone] at h
          simp at h
        · rw [hb] at h
          rw [show String.mk (dropLeadingToken clubPrefixTokens ("" : String).data) = ""
            from by decide, hnone] at h
          simp at h
        · rw [hb] at h
          rw [show String.mk (dropTrailingToken clubSuffixTokens ("" : String).data) = ""
            from by decide, hnone] at h
          simp at h
  · intro hl1 hl2 hl3
    by_cases h0 : name = ""
    · subst h0
      decide
    · simp only [normalize_team_name]
      rw [if_neg h0, hl1, hl2, hl3]

/-- Witness for C9 (amended) on an ASCII name with surviving characters. -/
theorem C9_witness : normalize_team_name "qq1" ≠ "" := by
  intro hc
  have h := ((C9_normalize_empty_iff "qq1" (by decide)).1.mp hc) 'q' (by decide)
  rcases h with hs | hp
  · exact absurd hs (by decide)
  · exact absurd hp (by decide)

/-- C5 fails as stated for large tolerances: with a 60-minute tolerance, an
exact-match candidate 2000 s away scores 2000 while a fuzzy candidate 500 s
away scores 1500, so the exact candidate's score is NOT lower — and
`match_events` consequently pairs the left event with the fuzzy candidate. -/
theorem C5_counterexample :
    (EventMatcher.candidatesFor (fun _ _ => (1:ℝ)) 60 0.85 ∅
        ⟨"p", "1", "L", "c", 0, "aa", "bb", [], "", false⟩
        [⟨"p", "2", "L", "c", 2000, "aa", "bb", [], "", false⟩,
         ⟨"p", "3", "L", "c", 500, "cc", "dd", [], "", false⟩]).map
      (fun c => (c.score, c.isExact)) = [(2000, true), (1500, false)] ∧
    ¬((2000:ℤ) < 1500) ∧
    EventMatcher.match_events (fun _ _ => (1:ℝ))
        [⟨"p", "1", "L", "c", 0, "aa", "bb", [], "", false⟩]
        [⟨"p", "2", "L", "c", 2000, "aa", "bb", [], "", false⟩,
         ⟨"p", "3", "L", "c", 500, "cc", "dd", [], "", false⟩] 60 0.85 =
      [(⟨"p", "1", "L", "c", 0, "aa", "bb", [], "", false⟩,
        ⟨"p", "3", "L", "c", 500, "cc", "dd", [], "", false⟩)] := by
  have hne1 : normalize_team_name "aa" ≠ normalize_team_name "cc" := by decide
  have hne2 : normalize_team_name "bb" ≠ normalize_team_name "dd" := by decide
  refine ⟨?_, by decide, ?_⟩
  · norm_num [EventMatcher.candidatesFor, EventMatcher.candidatesGo, parse_datetime,
      within_time_window, hne1, hne2]
  · norm_num [EventMatcher.match_events, EventMatcher.matchGo, EventMatcher.candidatesFor,
      EventMatcher.candidatesGo, EventMatcher.bestCandidate, parse_datetime,
      within_time_window, hne1, hne2]

/-- Witness for C5 (amended) at the default 12-minute tolerance: an exact
candidate 600 s away beats a fuzzy candidate 100 s away. -/
theorem C5_witness :
    ∃ c1 c2 : EventMatcher.Candidate,
      c1 ∈ EventMatcher.candidatesFor (fun _ _ => (1:ℝ)) 12 0.85 ∅
        ⟨"p", "1", "L", "c", 0, "aa", "bb", [], "", false⟩
        [⟨"p", "2", "L", "c", 600, "aa", "bb", [], "", false⟩,
         ⟨"p", "3", "L", "c", 100, "cc", "dd", [], "", false⟩] ∧
      c2 ∈ EventMatcher.candidatesFor (fun _ _ => (1:ℝ)) 12 0.85 ∅
        ⟨"p", "1", "L", "c", 0, "aa", "bb", [], "", false⟩
        [⟨"p", "2", "L", "c", 600, "aa", "bb", [], "", false⟩,
         ⟨"p", "3", "L", "c", 100, "cc", "dd", [], "", false⟩] ∧
      c1.isExact = true ∧ c2.isExact = false ∧ c1.score < c2.score := by
  have heval : EventMatcher.candidatesFor (fun _ _ => (1:ℝ)) 12 0.85 ∅
      ⟨"p", "1", "L", "c", 0, "aa", "bb", [], "", false⟩
      [⟨"p", "2", "L", "c", 600, "aa", "bb", [], "", false⟩,
       ⟨"p", "3", "L", "c", 100, "cc", "dd", [], "", false⟩] =
      [⟨0, ⟨"p", "2", "L", "c", 600, "aa", "bb", [], "", false⟩, 600, true, 1⟩,
       ⟨1, ⟨"p", "3", "L", "c", 100, "cc", "dd", [], "", false⟩, 1100, false, 1⟩] := by
    have hne1 : normalize_team_name "aa" ≠ normalize_team_name "cc" := by decide
    have hne2 : normalize_team_name "bb" ≠ normalize_team_name "dd" := by decide
    norm_num [EventMatcher.candidatesFor, EventMatcher.candidatesGo, parse_datetime,
      within_time_window, hne1, hne2]
  refine ⟨_, _, by rw [heval]; exact List.mem_cons_self _ _,
    by rw [heval]; exact List.mem_cons_of_mem _ (List.mem_cons_self _ _), rfl, rfl, ?_⟩
  exact (C5_exact_beats_fuzzy (fun _ _ => (1:ℝ)) 12 0.85 ∅
      ⟨"p", "1", "L", "c", 0, "aa", "bb", [], "", false⟩
      [⟨"p", "2", "L", "c", 600, "aa", "bb", [], "", false⟩,
       ⟨"p", "3", "L", "c", 100, "cc", "dd", [], "", false⟩] (by norm_num) _ _
      (by rw [heval]; exact List.mem_cons_self _ _)
      (by rw [heval]; exact List.mem_cons_of_mem _ (List.mem_cons_self _ _))).1 rfl rfl

/-! ## Supporting lemmas for swap detection -/

namespace ValueAnalyzer

lemma lookup_map_snd {α β : Type} (g : α → β) (l : List (String × α)) (k : String) :
    List.lookup k (l.map (fun kv => (kv.1, g kv.2))) = (List.lookup k l).map g := by
  induction l with
  | nil => rfl
  | cons a t ih =>
    rcases a with ⟨k1, v1⟩
    simp only [List.map_cons, List.lookup_cons]
    by_cases h : (k == k1) = true
    · rw [h]
      rfl
    · rw [Bool.not_eq_true] at h
      rw [h]
      exact ih

lemma devigPos_lookup (s : List (String × ℝ)) (k : String) :
    List.lookup k (devigPos s) = (List.lookup k s).map
      (fun v => (1 / v) ^ ((s.length : ℝ) / ((s.length : ℝ) - 1)) /
        (s.map (fun kv2 => (1 / kv2.2) ^ ((s.length : ℝ) / ((s.length : ℝ) - 1)))).sum) := by
  rw [devigPos]
  exact lookup_map_snd (fun v => (1 / v) ^ ((s.length : ℝ) / ((s.length : ℝ) - 1)) /
    (s.map (fun kv2 => (1 / kv2.2) ^ ((s.length : ℝ) / ((s.length : ℝ) - 1)))).sum) s k

lemma divergence_self (l : List (String × ℝ)) : divergence l l = 0 := by
  rw [divergence]
  have h : (l.map (fun kv =>
      |((List.lookup kv.1 l).getD 0) - ((List.lookup kv.1 l).getD 0)|)) =
      l.map (fun _ => 0) := by
    refine List.map_congr_left (fun kv _ => ?_)
    rw [sub_self, abs_zero]
  rw [h]
  have hz : ∀ m : List (String × ℝ), (m.map (fun _ => (0:ℝ))).sum = 0 := by
    intro m
    induction m with
    | nil => rfl
    | cons a t ih => rw [List.map_cons, List.sum_cons, ih, add_zero]
  exact hz l

lemma except_bind_ok {eps alpha beta : Type} (a : alpha) (f : alpha → Except eps beta) :
    (Except.ok a >>= f) = f a := rfl

lemma divergence_devigPos_anchor (p a : List (String × ℝ)) :
    divergence p (devigPos a) = (a.map (fun kv =>
      |((List.lookup kv.1 p).getD 0) -
        ((List.lookup kv.1 (devigPos a)).getD 0)|)).sum := by
  rw [divergence, devigPos, List.map_map]
  rfl

end ValueAnalyzer

/-! ## Claim theorems: home/away swap detection -/

/-- C7: whenever the soft and anchor markets de-vig to non-empty probability
dicts, the soft market has both a `home` and an `away` key, and the swapped
hypothesis de-vigs to a non-empty dict, `check_home_away_swap` adopts the
swapped probabilities exactly when `swapped_div + 0.05 < normal_div` and
keeps the normal orientation otherwise, where each divergence sums the
absolute probability differences over the anchor's outcome keys. -/
theorem C7_swap_hysteresis (soft anchor np ap sp : List (String × ℝ))
    (hnp : ValueAnalyzer.devigF soft = .ok (some np)) (hnpne : np ≠ [])
    (hap : ValueAnalyzer.devigF anchor = .ok (some ap)) (hapne : ap ≠ [])
    (hhome : (List.lookup "home" soft).isSome = true)
    (haway : (List.lookup "away" soft).isSome = true)
    (hsp : ValueAnalyzer.remove_vig_multiplicative (ValueAnalyzer.swappedOdds soft) =
      .ok (some sp))
    (hspne : sp ≠ []) :
    ValueAnalyzer.check_home_away_swap soft anchor =
      .ok (if ValueAnalyzer.divergence sp ap + 0.05 < ValueAnalyzer.divergence np ap
        then sp else np) := by
  rcases np with _ | ⟨np0, npr⟩
  · exact absurd rfl hnpne
  rcases ap with _ | ⟨ap0, apr⟩
  · exact absurd rfl hapne
  rcases sp with _ | ⟨sp0, spr⟩
  · exact absurd rfl hspne
  simp only [ValueAnalyzer.check_home_away_swap, hnp, hap, hsp,
    ValueAnalyzer.except_bind_ok]
  rw [if_pos (And.intro hhome haway)]
  split
  · rfl
  · rfl

/-- Witness for C7: with anchor odds {home: 1.5, draw: 4, away: 6} and soft odds
{home: 6, draw: 4, away: 1.5} the swapped interpretation is adopted — the result
is exactly the de-vig of the swapped dict, which here equals the anchor's own
de-vigged probabilities. -/
theorem C7_witness :
    ∃ sp ap : List (String × ℝ),
      ValueAnalyzer.check_home_away_swap
        [("home", (6:ℝ)), ("draw", 4), ("away", 3/2)]
        [("home", (3/2:ℝ)), ("draw", 4), ("away", 6)] = .ok sp ∧
      ValueAnalyzer.remove_vig_multiplicative
        (ValueAnalyzer.swappedOdds [("home", (6:ℝ)), ("draw", 4), ("away", 3/2)]) =
        .ok (some sp) ∧
      ValueAnalyzer.devigF [("home", (3/2:ℝ)), ("draw", 4), ("away", 6)] = .ok (some ap) ∧
      sp = ap := by
  have hkeysS : ∀ kv ∈ [("home", (6:ℝ)), ("draw", 4), ("away", 3/2)],
      kv.1 ≠ "margin" ∧ kv.1 ≠ "line" := by
    intro kv hkv
    fin_cases hkv <;> exact ⟨by decide, by decide⟩
  have hkeysA : ∀ kv ∈ [("home", (3/2:ℝ)), ("draw", 4), ("away", 6)],
      kv.1 ≠ "margin" ∧ kv.1 ≠ "line" := by
    intro kv hkv
    fin_cases hkv <;> exact ⟨by decide, by decide⟩
  have hposS : ∀ kv ∈ [("home", (6:ℝ)), ("draw", 4), ("away", 3/2)], 0 < kv.2 := by
    intro kv hkv
    fin_cases hkv <;> norm_num
  have hposA : ∀ kv ∈ [("home", (3/2:ℝ)), ("draw", 4), ("away", 6)], 0 < kv.2 := by
    intro kv hkv
    fin_cases hkv <;> norm_num
  have hnp : ValueAnalyzer.devigF [("home", (6:ℝ)), ("draw", 4), ("away", 3/2)] =
      .ok (some (ValueAnalyzer.devigPos [("home", (6:ℝ)), ("draw", 4), ("away", 3/2)])) :=
    ValueAnalyzer.devigF_of_strip_pos _ _ (ValueAnalyzer.stripAux_eq_self _ hkeysS)
      (by simp) hposS
  have hap : ValueAnalyzer.devigF [("home", (3/2:ℝ)), ("draw", 4), ("away", 6)] =
      .ok (some (ValueAnalyzer.devigPos [("home", (3/2:ℝ)), ("draw", 4), ("away", 6)])) :=
    ValueAnalyzer.devigF_of_strip_pos _ _ (ValueAnalyzer.stripAux_eq_self _ hkeysA)
      (by simp) hposA
  have hsp : ValueAnalyzer.remove_vig_multiplicative
      (ValueAnalyzer.swappedOdds [("home", (6:ℝ)), ("draw", 4), ("away", 3/2)]) =
      .ok (some (ValueAnalyzer.devigPos [("home", (3/2:ℝ)), ("draw", 4), ("away", 6)])) := by
    have hswap : ValueAnalyzer.swappedOdds [("home", (6:ℝ)), ("draw", 4), ("away", 3/2)] =
        ([("home", (3/2:ℝ)), ("draw", 4), ("away", 6)]).map (fun kv => (kv.1, some kv.2)) := rfl
    rw [hswap]
    exact hap
  have hnpne : ValueAnalyzer.devigPos [("home", (6:ℝ)), ("draw", 4), ("away", 3/2)] ≠ [] := by
    simp [ValueAnalyzer.devigPos]
  have hapne : ValueAnalyzer.devigPos [("home", (3/2:ℝ)), ("draw", 4), ("away", 6)] ≠ [] := by
    simp [ValueAnalyzer.devigPos]
  have hmain := C7_swap_hysteresis _ _ _ _ _ hnp hnpne hap hapne rfl rfl hsp hapne
  rw [ValueAnalyzer.divergence_self] at hmain
  have hineq : (0:ℝ) + 0.05 <
      ValueAnalyzer.divergence
        (ValueAnalyzer.devigPos [("home", (6:ℝ)), ("draw", 4), ("away", 3/2)])
        (ValueAnalyzer.devigPos [("home", (3/2:ℝ)), ("draw", 4), ("away", 6)]) := by
    rw [ValueAnalyzer.divergence_devigPos_anchor]
    simp only [List.map_cons, List.map_nil, List.sum_cons, List.sum_nil,
      ValueAnalyzer.devigPos_lookup]
    have l1 : List.lookup "home" [("home", (6:ℝ)), ("draw", 4), ("away", 3/2)] = some 6 := rfl
    have l2 : List.lookup "draw" [("home", (6:ℝ)), ("draw", 4), ("away", 3/2)] = some 4 := rfl
    have l3 : List.lookup "away" [("home", (6:ℝ)), ("draw", 4), ("away", 3/2)] = some (3/2) := rfl
    have l4 : List.lookup "home" [("home", (3/2:ℝ)), ("draw", 4), ("away", 6)] = some (3/2) := rfl
    have l5 : List.lookup "draw" [("home", (3/2:ℝ)), ("draw", 4), ("away", 6)] = some 4 := rfl
    have l6 : List.lookup "away" [("home", (3/2:ℝ)), ("draw", 4), ("away", 6)] = some 6 := rfl
    simp only [l1, l2, l3, l4, l5, l6, Option.map_some', Option.getD_some, List.length_cons,
      List.length_nil]
    norm_num
    set x : ℝ := (1/6 : ℝ) ^ ((3:ℝ)/2) with hxdef
    set y : ℝ := (1/4 : ℝ) ^ ((3:ℝ)/2) with hydef
    set z : ℝ := (2/3 : ℝ) ^ ((3:ℝ)/2) with hzdef
    have hS2 : z + (y + x) = x + (y + z) := by ring
    rw [hS2]
    set S : ℝ := x + (y + z) with hSdef
    have hx_pos : (0:ℝ) < x := Real.rpow_pos_of_pos (by norm_num) _
    have hy_pos : (0:ℝ) < y := Real.rpow_pos_of_pos (by norm_num) _
    have hz_pos : (0:ℝ) < z := Real.rpow_pos_of_pos (by norm_num) _
    have hxz : x < z := Real.rpow_lt_rpow (by norm_num) (by norm_num) (by norm_num)
    have hx_ub : x ≤ 1/6 := by
      have h := Real.rpow_le_rpow_of_exponent_ge (x := (1/6:ℝ)) (by norm_num) (by norm_num)
        (show (1:ℝ) ≤ 3/2 by norm_num)
      rw [Real.rpow_one] at h
      exact h
    have hy_ub : y ≤ 1/4 := by
      have h := Real.rpow_le_rpow_of_exponent_ge (x := (1/4:ℝ)) (by norm_num) (by norm_num)
        (show (1:ℝ) ≤ 3/2 by norm_num)
      rw [Real.rpow_one] at h
      exact h
    have hz_ub : z ≤ 2/3 := by
      have h := Real.rpow_le_rpow_of_exponent_ge (x := (2/3:ℝ)) (by norm_num) (by norm_num)
        (show (1:ℝ) ≤ 3/2 by norm_num)
      rw [Real.rpow_one] at h
      exact h
    have hz_lb : (4/9 : ℝ) ≤ z := by
      have h := Real.rpow_le_rpow_of_exponent_ge (x := (2/3:ℝ)) (by norm_num) (by norm_num)
        (show (3:ℝ)/2 ≤ 2 by norm_num)
      have h3 : ((2:ℝ)/3) ^ (2:ℝ) = 4/9 := by
        rw [Real.rpow_two]
        norm_num
      rw [h3] at h
      exact h
    have hS_pos : (0:ℝ) < S := by
      rw [hSdef]
      linarith
    have e1 : |x/S - z/S| = z/S - x/S := by
      rw [abs_sub_comm]
      exact abs_of_nonneg (sub_nonneg.mpr ((div_le_div_iff_of_pos_right hS_pos).mpr (le_of_lt hxz)))
    have e2 : |y/S - y/S| = 0 := by
      rw [sub_self, abs_zero]
    have e3 : |z/S - x/S| = z/S - x/S :=
      abs_of_nonneg (sub_nonneg.mpr ((div_le_div_iff_of_pos_right hS_pos).mpr (le_of_lt hxz)))
    rw [e1, e2, e3, zero_add]
    have expand : z/S - x/S + (z/S - x/S) = (z - x + (z - x))/S := by ring
    rw [expand, lt_div_iff₀ hS_pos]
    have hS_ub : S ≤ 13/12 := by
      rw [hSdef]
      linarith
    linarith
  rw [if_pos hineq] at hmain
  exact ⟨_, _, hmain, hsp, hap, rfl⟩

lemma except_bind_error {eps alpha beta : Type} (e : eps) (f : alpha → Except eps beta) :
    ((Except.error e : Except eps alpha) >>= f) = Except.error e := rfl

/-- C3 fails on the code (code bug): a matched pair whose soft `1x2` market has
`home` and `away` but no `draw` key makes `check_home_away_swap` build
`swapped_odds = {home: ..., draw: None, away: ...}`; de-vigging that dict
raises `TypeError` (`1.0/None`), which the
`except (KeyError, ZeroDivisionError, ValueError)` clause does not catch and
which `generate_value_bets` does not handle, so the whole batch aborts. -/
theorem C3_missing_draw_raises :
    ValueAnalyzer.generate_value_bets (fun _ _ => (0:ℝ))
      [⟨"pin", "a1", "L", "c", 0, "h", "a",
         [("1x2", [("home", (2:ℝ)), ("draw", 3), ("away", 4)])], "", false⟩]
      [("book",
        [⟨"bk", "s1", "L", "c", 0, "h", "a",
           [("1x2", [("home", (21/10:ℝ)), ("away", 4)])], "", false⟩])]
      12 (25/1000) 1000 = .error () := by
  have h1 : ValueAnalyzer.devigF [("home", (21/10:ℝ)), ("away", 4)] =
      .ok (some [("home", (1/(21/10:ℝ))^(2:ℕ) / ((1/(21/10:ℝ))^(2:ℕ) + (1/(4:ℝ))^(2:ℕ))),
                 ("away", (1/(4:ℝ))^(2:ℕ) / ((1/(21/10:ℝ))^(2:ℕ) + (1/(4:ℝ))^(2:ℕ)))]) :=
    ValueAnalyzer.devigF_two "home" "away" (21/10) 4 (by decide) (by decide) (by decide)
      (by decide) (by norm_num) (by norm_num) (by norm_num)
  have h2 : ValueAnalyzer.devigF [("home", (2:ℝ)), ("draw", 3), ("away", 4)] =
      .ok (some (ValueAnalyzer.devigPos [("home", (2:ℝ)), ("draw", 3), ("away", 4)])) := by
    refine ValueAnalyzer.devigF_of_strip_pos _ _
      (ValueAnalyzer.stripAux_eq_self _ ?_) (by simp) ?_
    · intro kv hkv
      fin_cases hkv <;> exact ⟨by decide, by decide⟩
    · intro kv hkv
      fin_cases hkv <;> norm_num
  simp only [ValueAnalyzer.devigPos, List.map_cons, List.map_nil, List.length_cons,
    List.length_nil, List.sum_cons, List.sum_nil] at h2
  have h3 : ValueAnalyzer.remove_vig_multiplicative
      (ValueAnalyzer.swappedOdds [("home", (21/10:ℝ)), ("away", 4)]) = .error () := by
    have hswapped : ValueAnalyzer.swappedOdds [("home", (21/10:ℝ)), ("away", 4)] =
        [("home", some (4:ℝ)), ("draw", none), ("away", some (21/10))] := rfl
    rw [hswapped]
    simp only [ValueAnalyzer.remove_vig_multiplicative]
    rw [ValueAnalyzer.stripAux_eq_self _
      (by intro kv hkv; fin_cases hkv <;> exact ⟨by decide, by decide⟩)]
    simp only [ValueAnalyzer.firstBadVal]
    rw [if_neg (by norm_num : ¬((4:ℝ) = 0))]
  have h4 : ValueAnalyzer.check_home_away_swap [("home", (21/10:ℝ)), ("away", 4)]
      [("home", (2:ℝ)), ("draw", 3), ("away", 4)] = .error () := by
    simp only [ValueAnalyzer.check_home_away_swap, h1, h2, ValueAnalyzer.except_bind_ok]
    rw [if_pos (And.intro
      (show (List.lookup "home" [("home", (21/10:ℝ)), ("away", 4)]).isSome = true from rfl)
      (show (List.lookup "away" [("home", (21/10:ℝ)), ("away", 4)]).isSome = true from rfl))]
    rw [h3]
    rfl
  have h5 : ValueAnalyzer.softProbsFor "1x2" [("home", (21/10:ℝ)), ("away", 4)]
      [("home", (2:ℝ)), ("draw", 3), ("away", 4)] = .error () := by
    simp only [ValueAnalyzer.softProbsFor, if_pos rfl, h4]
    rfl
  have h6 : ValueAnalyzer.processMarket 1000 (25/1000) "book"
      ⟨"bk", "s1", "L", "c", 0, "h", "a",
         [("1x2", [("home", (21/10:ℝ)), ("away", 4)])], "", false⟩
      ⟨"pin", "a1", "L", "c", 0, "h", "a",
         [("1x2", [("home", (2:ℝ)), ("draw", 3), ("away", 4)])], "", false⟩
      "1x2" = .error () := by
    have hls : List.lookup "1x2" [("1x2", [("home", (21/10:ℝ)), ("away", 4)])] =
        some [("home", (21/10:ℝ)), ("away", 4)] := rfl
    have hla : List.lookup "1x2" [("1x2", [("home", (2:ℝ)), ("draw", 3), ("away", 4)])] =
        some [("home", (2:ℝ)), ("draw", 3), ("away", 4)] := rfl
    simp only [ValueAnalyzer.processMarket, hls, hla, h5, except_bind_error]
  simp only [ValueAnalyzer.generate_value_bets, ValueAnalyzer.collectBets, List.foldlM,
    EventMatcher.candidatesGo, EventMatcher.bestCandidate, List.foldl, and_self,
    decide_True, h6, ValueAnalyzer.except_bind_ok, except_bind_error]

/-! ## Claim theorems: output ordering -/

lemma sortLe_trans (a b c : ValueBet) :
    ValueAnalyzer.sortLe a b → ValueAnalyzer.sortLe b c → ValueAnalyzer.sortLe a c := by
  simp only [ValueAnalyzer.sortLe, decide_eq_true_eq]
  exact fun h1 h2 => le_trans h2 h1

lemma sortLe_total (a b : ValueBet) :
    ValueAnalyzer.sortLe a b || ValueAnalyzer.sortLe b a := by
  simp only [ValueAnalyzer.sortLe, Bool.or_eq_true, decide_eq_true_eq]
  exact le_total _ _

/-- C8: when the accumulation phase succeeds, `generate_value_bets` returns
exactly the stable descending merge sort of the emitted bets by edge
percentage: the output is sorted with every later edge percentage at most the
earlier one, and for any fixed edge value the bets carrying it appear in
exactly their emission order. -/
theorem C8_sorted_stable (sim : String → String → ℝ)
    (anchor_events : List UnifiedEvent) (soft_books : List (String × List UnifiedEvent))
    (tol : ℤ) (min_edge bankroll : ℝ) (bets : List ValueBet)
    (h : ValueAnalyzer.collectBets sim anchor_events soft_books tol min_edge bankroll =
      .ok bets) :
    ValueAnalyzer.generate_value_bets sim anchor_events soft_books tol min_edge bankroll =
      .ok (bets.mergeSort ValueAnalyzer.sortLe) ∧
    (bets.mergeSort ValueAnalyzer.sortLe).Pairwise
      (fun a b => b.edge_percentage ≤ a.edge_percentage) ∧
    ∀ q : ℝ, (bets.mergeSort ValueAnalyzer.sortLe).filter
        (fun v => decide (v.edge_percentage = q)) =
      bets.filter (fun v => decide (v.edge_percentage = q)) := by
  refine ⟨?_, ?_, ?_⟩
  · simp only [ValueAnalyzer.generate_value_bets, h, ValueAnalyzer.except_bind_ok]
    rfl
  · have hs := List.sorted_mergeSort sortLe_trans sortLe_total bets
    exact hs.imp (fun hab => by
      simpa [ValueAnalyzer.sortLe, decide_eq_true_eq] using hab)
  · intro q
    have hpair : (bets.filter (fun v => decide (v.edge_percentage = q))).Pairwise
        (fun a b => ValueAnalyzer.sortLe a b = true) := by
      refine List.pairwise_of_forall_mem_list (fun a ha b hb => ?_)
      have ha2 : a.edge_percentage = q := by
        simpa using List.of_mem_filter ha
      have hb2 : b.edge_percentage = q := by
        simpa using List.of_mem_filter hb
      simp [ValueAnalyzer.sortLe, ha2, hb2]
    have hsub : List.Sublist
        (bets.filter (fun v => decide (v.edge_percentage = q)))
        (bets.mergeSort ValueAnalyzer.sortLe) :=
      List.sublist_mergeSort sortLe_trans sortLe_total hpair (List.filter_sublist bets)
    have hsub2 := hsub.filter (fun v => decide (v.edge_percentage = q))
    have hff : (bets.filter (fun v => decide (v.edge_percentage = q))).filter
        (fun v => decide (v.edge_percentage = q)) =
        bets.filter (fun v => decide (v.edge_percentage = q)) := by
      rw [List.filter_filter]
      simp
    rw [hff] at hsub2
    have hperm := (List.mergeSort_perm bets ValueAnalyzer.sortLe).filter
      (fun v => decide (v.edge_percentage = q))
    exact (hsub2.eq_of_length (hperm.length_eq.symm)).symm

/-- Witness for C8 on the empty batch: the accumulation succeeds with no bets
and the returned list is its (empty) stable sort. -/
theorem C8_witness :
    ValueAnalyzer.collectBets (fun _ _ => (0:ℝ)) [] [] 12 0.025 1000 = .ok [] ∧
    ValueAnalyzer.generate_value_bets (fun _ _ => (0:ℝ)) [] [] 12 0.025 1000 =
      .ok (([] : List ValueBet).mergeSort ValueAnalyzer.sortLe) := by
  have h : ValueAnalyzer.collectBets (fun _ _ => (0:ℝ)) [] [] 12 0.025 1000 = .ok [] := rfl
  exact ⟨h, (C8_sorted_stable (fun _ _ => (0:ℝ)) [] [] 12 0.025 1000 [] h).1⟩

end VB
